import Mathlib

/-
Verification development for the aid2e scheduler core.

This file gives a shallow embedding, in Lean 4, of the parts of the
scheduler that the specification's claims are about:

  * src/scheduler/job/job_state.py      (JobState)
  * src/scheduler/trial/trial_state.py  (TrialState)
  * src/scheduler/job/job.py            (Job and its methods)
  * src/scheduler/job/multi_steps_job.py (MultiStepsFunction, MultiStepsJob)
  * src/scheduler/runners/joblib_runner.py (function execution + polling)
  * src/scheduler/runners/slurm_runner.py  (check_job_status)
  * src/scheduler/trial/trial.py        (Trial)
  * src/scheduler/ax_scheduler.py       (run_optimization / monitor_trials guards)

Modelling conventions, used consistently below:
  * Python dicts become ordered association lists `List (k × v)`; assignment
    `d[k] = v` keeps the position of an existing key and appends a new key at
    the end (`dictInsert`), matching CPython dict semantics.
  * Python exceptions become `Except String`; the string names the exception.
  * `datetime.now()` timestamps become an abstract `now : Nat` argument;
    only presence/absence of a timestamp matters to the claims.
  * Opaque backend effects (`runner.check_job_status(job)`) become an explicit
    function argument `poll : Job → Job` applied where the source calls them.
  * Python values reachable from job parameters/results are modelled by the
    inductive `Value`; global-parameter values (always scalars in the source's
    use) by `Scalar`.
-/

/-- Scalar values used as global-parameter values (strings and integers;
numeric literals of the source are modelled as integers or strings, no
claim depends on float arithmetic). -/
inductive Scalar where
  | s (v : String)
  | i (n : Int)
deriving DecidableEq, Repr

/-- Formatting of a scalar by a Python f-string, used when building
dataset-name fragments (f"{k}_{v}"). -/
def Scalar.pyStr : Scalar → String
  | .s v => v
  | .i n => toString n

/-- Keys of `MultiStepsJob.step_jobs[step]`: either the sentinel string
"None" (for steps outside `global_parameters_steps`, from
`get_key_from_dict(None)`) or the canonical tuple `tuple(sorted(key.items()))`
of (name, value) pairs. -/
inductive GKey where
  | noneKey
  | key (items : List (String × Scalar))
deriving DecidableEq, Repr

/-- Python values stored in parameter/result mappings. `vKeyDict` models the
dicts keyed by global-parameter key tuples that the `all2one` aggregation of
`MultiStepsJob.get_parent_results` builds. -/
inductive Value where
  | vNone
  | vBool (b : Bool)
  | vInt (n : Int)
  | vStr (s : String)
  | vDict (m : List (String × Value))
  | vKeyDict (m : List (GKey × Value))

/-- Python truthiness of a `Value` (used by `if error:` in `Job.fail` and
`if ... and results:` in `Job.set_parent_results`). -/
def Value.isTruthy : Value → Bool
  | .vNone => false
  | .vBool b => b
  | .vInt n => n != 0
  | .vStr s => s != ""
  | .vDict m => !m.isEmpty
  | .vKeyDict m => !m.isEmpty

/-- Scalar injected into the `Value` universe (a global-parameter value added
to a job's parameter dict). -/
def Scalar.toValue : Scalar → Value
  | .s v => .vStr v
  | .i n => .vInt n

/-- Lookup in an ordered association list, i.e. Python `d.get(k)` /
`d[k]` (the first binding wins; our insertion keeps keys unique). -/
def dictGet {κ α : Type} [DecidableEq κ] (m : List (κ × α)) (k : κ) : Option α :=
  match m with
  | [] => none
  | (k', v) :: rest => if k' = k then some v else dictGet rest k

/-- Python dict assignment `d[k] = v`: replace in place if the key exists,
append at the end otherwise. -/
def dictInsert {κ α : Type} [DecidableEq κ] (k : κ) (v : α) : List (κ × α) → List (κ × α)
  | [] => [(k, v)]
  | (k', v') :: rest => if k' = k then (k, v) :: rest else (k', v') :: dictInsert k v rest

/-- Python `d.update(d2)`: assign every binding of `d2` into `d` in order. -/
def dictUpdate {κ α : Type} [DecidableEq κ] (m m2 : List (κ × α)) : List (κ × α) :=
  m2.foldl (fun acc p => dictInsert p.1 p.2 acc) m

/-- Checked dict lookup, i.e. Python `d[k]` raising `KeyError` when absent. -/
def pyGet {κ α : Type} [DecidableEq κ] (m : List (κ × α)) (k : κ) : Except String α :=
  match dictGet m k with
  | some v => .ok v
  | none => .error "KeyError"

/-- States of a job, from src/scheduler/job/job_state.py. -/
inductive JobState where
  | NEW | READY | CREATED | QUEUED | RUNNING | COMPLETED | FAILED | PAUSED
  | CANCELLED | RUNNINGNOMONITOR
deriving DecidableEq, Repr

/-- States of a trial, from src/scheduler/trial/trial_state.py. -/
inductive TrialState where
  | CREATED | QUEUED | RUNNING | COMPLETED | FAILED | PAUSED | CANCELLED
deriving DecidableEq, Repr

/-- Job kinds, from src/scheduler/job/job.py (class JobType). -/
inductive JobType where
  | FUNCTION | SCRIPT | CONTAINER | MULTISTEPSFUNCTION
deriving DecidableEq, Repr

/-- A leaf job, from src/scheduler/job/job.py (class Job).  The opaque
payload (`function`, `script_path`, …) is modelled by presence flags; the
runner reference by the flag `hasRunner` (what `runner.run_job` /
`runner.check_job_status` do to the job is passed explicitly where needed).
The random uuid suffix of generated job ids is abstracted away (no claim
depends on job ids). -/
structure Job where
  jobId : String
  jobType : JobType := .FUNCTION
  state : JobState := .CREATED
  params : List (String × Value) := []
  results : List (String × Value) := []
  parentResults : Option (List (String × Value)) := none
  parentResultParameterName : Option String := some "parent_result_parameter"
  returnFuncResults : Bool := true
  hasRunner : Bool := false
  internalId : Option Nat := none
  parentInternalId : Option Nat := none
  startTime : Option Nat := none
  endTime : Option Nat := none
  outputFiles : List String := []
  withOutputDataset : Bool := false
  outputFile : Option String := none
  outputDataset : Option String := none
  numEvents : Nat := 1
  numEventsPerJob : Nat := 1
  withInputDatasets : Bool := false
  inputDatasets : List (String × String) := []

/-- Job.set_parent_results (src/scheduler/job/job.py lines 129-143): store
the parent's result mapping, and when `parent_result_parameter_name` is
truthy and `results` is truthy (a non-empty dict), assign
`params[name] = results.get(name, None)`. -/
def Job.setParentResults (j : Job) (results : List (String × Value)) : Job :=
  let j := { j with parentResults := some results }
  match j.parentResultParameterName with
  | some name =>
      if !results.isEmpty then
        { j with params := dictInsert name ((dictGet results name).getD .vNone) j.params }
      else j
  | none => j

/-- Job.run (src/scheduler/job/job.py lines 154-167): raise ValueError when
no runner is assigned, otherwise set state RUNNING, record the start time and
submit to the runner.  A returned `.ok` means the method ran to completion,
i.e. `runner.run_job(self)` was invoked. -/
def Job.run (j : Job) (now : Nat) : Except String Job :=
  if !j.hasRunner then .error "No runner assigned to this job"
  else .ok { j with state := .RUNNING, startTime := some now }

/-- Job.check_status (src/scheduler/job/job.py lines 169-175): delegate to
`runner.check_job_status(self)` (the `poll` argument) unless the state is in
the skip list or `return_func_results` is false. -/
def Job.checkStatus (poll : Job → Job) (j : Job) : Job :=
  if j.state ∉ [JobState.NEW, .READY, .CREATED, .COMPLETED, .FAILED] then
    if j.returnFuncResults then poll j else j
  else j

/-- Job.is_running (src/scheduler/job/job.py). -/
def Job.isRunning (j : Job) : Bool := j.state = .RUNNING

/-- Job.is_completed (src/scheduler/job/job.py). -/
def Job.isCompleted (j : Job) : Bool := j.state = .COMPLETED

/-- Job.has_failed (src/scheduler/job/job.py). -/
def Job.hasFailed (j : Job) : Bool := j.state = .FAILED

/-- Job.complete (src/scheduler/job/job.py lines 204-214). -/
def Job.complete (j : Job) (results : List (String × Value)) (now : Nat) : Job :=
  { j with state := .COMPLETED, endTime := some now, results := results }

/-- Job.fail (src/scheduler/job/job.py lines 216-227): mark FAILED and, when
the error argument is truthy, store it under `results["error"]`. -/
def Job.fail (j : Job) (error : Option Value) (now : Nat) : Job :=
  let j := { j with state := .FAILED, endTime := some now }
  match error with
  | some e => if e.isTruthy then { j with results := dictInsert "error" e j.results } else j
  | none => j

example : (Job.run { jobId := "j", hasRunner := false } 0).isOk = false := by decide

example :
    (Job.setParentResults { jobId := "j", parentResultParameterName := some "x" }
      [("y", .vInt 3)]).params = [("x", .vNone)] := rfl

/-- Per-step bookkeeping entry of `MultiStepsJob.step_states`
(src/scheduler/job/multi_steps_job.py line 282). -/
structure StepState where
  state : JobState
  returnFuncResults : Bool
deriving DecidableEq, Repr

/-- Resolved dependency-edge entry of `MultiStepsJob.deps`
(src/scheduler/job/multi_steps_job.py lines 354-370). -/
structure Dep where
  parent : String
  state : JobState
  depType : String
  depMap : String
deriving DecidableEq, Repr

/-- A MultiStepsJob (src/scheduler/job/multi_steps_job.py, class
MultiStepsJob): runtime state after `_initialize`.  `step_jobs` is an ordered
dict of ordered dicts; `global_parameters` is the list of combination dicts
(each already in sorted-name order, as `dict(zip(sorted_keys, values))`
produces). -/
structure MSJob where
  jobId : String
  trialId : String := ""
  state : JobState := .CREATED
  params : List (String × Value) := []
  results : List (String × Value) := []
  hasRunner : Bool := false
  stepJobs : List (String × List (GKey × Job)) := []
  stepStates : List (String × StepState) := []
  deps : List (String × Dep) := []
  final : Option String := none
  globalParameters : List (List (String × Scalar)) := []
  globalParametersSteps : List String := []
  startTime : Option Nat := none
  endTime : Option Nat := none

/-- MultiStepsJob.is_completed. -/
def MSJob.isCompleted (m : MSJob) : Bool := m.state = .COMPLETED

/-- MultiStepsJob.has_failed. -/
def MSJob.hasFailed (m : MSJob) : Bool := m.state = .FAILED

/-- MultiStepsJob.complete (src/scheduler/job/multi_steps_job.py lines
610-619). -/
def MSJob.complete (m : MSJob) (results : List (String × Value)) (now : Nat) : MSJob :=
  { m with state := .COMPLETED, endTime := some now, results := results }

/-- MultiStepsJob.fail (src/scheduler/job/multi_steps_job.py lines 621-631):
mark FAILED and, when the error argument is truthy, store it under
`results["error"]`. -/
def MSJob.fail (m : MSJob) (error : Option Value) (now : Nat) : MSJob :=
  let m := { m with state := .FAILED, endTime := some now }
  match error with
  | some e => if e.isTruthy then { m with results := dictInsert "error" e m.results } else m
  | none => m

/-- MultiStepsJob.get_ready_steps (src/scheduler/job/multi_steps_job.py lines
380-392): steps whose dependency edge (if any) is READY and whose own step
state is NEW.  The `step_states[step_name]` subscript can raise KeyError, so
the result is an `Except`; Python's `and` short-circuits, so the subscript is
only evaluated when the dependency test passed. -/
def MSJob.getReadySteps (m : MSJob) : Except String (List String) :=
  if m.state ∈ [JobState.COMPLETED, .FAILED] then .ok []
  else
    m.stepJobs.foldlM (fun acc sp => do
      let depOk := match dictGet m.deps sp.1 with
        | none => true
        | some d => decide (d.state = JobState.READY)
      if depOk then do
        let st ← pyGet m.stepStates sp.1
        pure (if st.state = JobState.NEW then acc ++ [sp.1] else acc)
      else pure acc) []

/-- Fan-in aggregation of `MultiStepsJob.get_parent_results` for
`dep_map=all2one` (src/scheduler/job/multi_steps_job.py lines 474-482):
`results = defaultdict(dict); for job_key, job in parent_jobs.items(): for
metric, value in job.results.items(): results[metric][job_key] = value`. -/
def aggregateAll2One (parentJobs : List (GKey × Job)) : List (String × Value) :=
  (parentJobs.foldl (fun acc p =>
      p.2.results.foldl (fun acc2 mv =>
        let inner := match dictGet acc2 mv.1 with
          | some (Value.vKeyDict inner) => inner
          | _ => []
        dictInsert mv.1 (Value.vKeyDict (dictInsert p.1 mv.2 inner)) acc2) acc) [])

/-- MultiStepsJob.get_parent_results (src/scheduler/job/multi_steps_job.py
lines 428-483).  Returns the Python pair `(has_parent, parent_results)`
together with the (possibly updated) step job: the `datasets` branch sets
`step_job.parent_internal_id` from the parent job at the same key.  The
`return None` fall-through (an unsupported `dep_map`) surfaces as the
TypeError that unpacking `None` raises at the call site in
`run_ready_steps`. -/
def MSJob.getParentResults (m : MSJob) (stepJob : Job) (stepName : String)
    (gParamKey : GKey) : Except String (Bool × Option (List (String × Value)) × Job) :=
  match dictGet m.deps stepName with
  | none => .ok (false, none, stepJob)
  | some dep =>
    let parentJobs := (dictGet m.stepJobs dep.parent).getD []
    if dep.depType = "datasets" then
      match dictGet parentJobs gParamKey with
      | none => .error "Exception: no parent jobs are found for job key"
      | some parentJob => .ok (false, none, { stepJob with parentInternalId := parentJob.internalId })
    else if parentJobs.isEmpty then .ok (false, none, stepJob)
    else if dep.depMap = "one2one" then
      match dictGet parentJobs gParamKey with
      | none => .error "Exception: no parent jobs are found for job key"
      | some parentJob => .ok (true, some parentJob.results, stepJob)
    else if dep.depMap = "all2one" then
      .ok (true, some (aggregateAll2One parentJobs), stepJob)
    else .error "TypeError: cannot unpack non-iterable NoneType object"

/-- Body of the outer loop of `MultiStepsJob.run_ready_steps`
(src/scheduler/job/multi_steps_job.py lines 492-503) for one ready step: for
every sub-job in key order, resolve the parent result, inject it when
present, and run the sub-job; then set the step state to RUNNING (or
RUNNINGNOMONITOR when the step does not return function results).  The
parent step read by `get_parent_results` is a different step than the one
being mutated (self-dependencies do not occur in initialized jobs). -/
def MSJob.runOneStep (m : MSJob) (step : String) (now : Nat) : Except String MSJob := do
  let entries ← pyGet m.stepJobs step
  let entries2 ← entries.foldlM (fun acc p => do
      let (hasParent, parentResults, j) ← m.getParentResults p.2 step p.1
      let j := if hasParent then j.setParentResults (parentResults.getD []) else j
      let j ← j.run now
      pure (acc ++ [(p.1, j)])) ([] : List (GKey × Job))
  let m := { m with stepJobs := dictInsert step entries2 m.stepJobs }
  let st ← pyGet m.stepStates step
  let st := if st.returnFuncResults then { st with state := JobState.RUNNING }
            else { st with state := JobState.RUNNINGNOMONITOR }
  pure { m with stepStates := dictInsert step st m.stepStates }

/-- MultiStepsJob.run_ready_steps (src/scheduler/job/multi_steps_job.py lines
485-503). -/
def MSJob.runReadySteps (m : MSJob) (now : Nat) : Except String MSJob := do
  let readySteps ← m.getReadySteps
  readySteps.foldlM (fun acc step => acc.runOneStep step now) m

/-- MultiStepsJob.run (src/scheduler/job/multi_steps_job.py lines 505-511). -/
def MSJob.run (m : MSJob) (now : Nat) : Except String MSJob :=
  MSJob.runReadySteps { m with state := .RUNNING, startTime := some now } now

/-- MultiStepsJob.get_final_results (src/scheduler/job/multi_steps_job.py
lines 513-527).  When the final step holds more than one sub-job this calls
`self.fail(...)` but does NOT return: execution falls through and overwrites
`self.results` with the first sub-job's results.  `g_param_keys[0]` on an
empty dict raises IndexError; `self.step_states[self.final]` raises KeyError
when `final` is None or unknown. -/
def MSJob.getFinalResults (m : MSJob) (now : Nat) : Except String MSJob := do
  let finalName ← match m.final with
    | some f => Except.ok f
    | none => Except.error "KeyError"
  let st ← pyGet m.stepStates finalName
  if st.state ∉ [JobState.COMPLETED, .FAILED] then pure m
  else do
    let entries ← pyGet m.stepJobs finalName
    let m := if entries.length ≠ 1 then
        m.fail (some (.vDict [("error", .vStr ("Job " ++ m.jobId ++
          " should have only one job to get results. However it has different jobs"))])) now
      else m
    match entries with
    | [] => .error "IndexError: list index out of range"
    | e0 :: _ => pure { m with results := e0.2.results }

/-- Monitoring sweep at the top of `MultiStepsJob.check_status`
(src/scheduler/job/multi_steps_job.py lines 537-545): poll every sub-job
whose `return_func_results` is true and record whether any has failed. -/
def MSJob.pollStepJobs (m : MSJob) (poll : Job → Job) : MSJob × Bool :=
  let res := m.stepJobs.foldl (fun (acc : List (String × List (GKey × Job)) × Bool) sp =>
      let inner := sp.2.foldl (fun (acc2 : List (GKey × Job) × Bool) p =>
          if !p.2.returnFuncResults then (acc2.1 ++ [p], acc2.2)
          else
            let j := Job.checkStatus poll p.2
            (acc2.1 ++ [(p.1, j)], acc2.2 || j.hasFailed)) ([], acc.2)
      (acc.1 ++ [(sp.1, inner.1)], inner.2)) ([], false)
  ({ m with stepJobs := res.1 }, res.2)

/-- Step roll-up of `MultiStepsJob.check_status`
(src/scheduler/job/multi_steps_job.py lines 555-561): a step is COMPLETED
when all of its sub-jobs are completed, FAILED when one has failed. -/
def MSJob.rollUpStepStates (m : MSJob) : Except String MSJob := do
  let stepStates ← m.stepJobs.foldlM (fun acc sp => do
      if sp.2.all (fun p => p.2.isCompleted) then do
        let st ← pyGet acc sp.1
        pure (dictInsert sp.1 { st with state := JobState.COMPLETED } acc)
      else if sp.2.any (fun p => p.2.hasFailed) then do
        let st ← pyGet acc sp.1
        pure (dictInsert sp.1 { st with state := JobState.FAILED } acc)
      else pure acc) m.stepStates
  pure { m with stepStates := stepStates }

/-- Dependency-edge update of `MultiStepsJob.check_status`
(src/scheduler/job/multi_steps_job.py lines 574-578): an edge becomes READY
once its parent step is COMPLETED, FAILED or RUNNINGNOMONITOR. -/
def MSJob.updateDeps (m : MSJob) : Except String MSJob := do
  let deps ← m.deps.foldlM (fun acc dp => do
      if dp.2.state ≠ .READY then do
        let pst ← pyGet m.stepStates dp.2.parent
        if pst.state ∈ [JobState.COMPLETED, .FAILED, .RUNNINGNOMONITOR] then
          pure (acc ++ [(dp.1, { dp.2 with state := JobState.READY })])
        else pure (acc ++ [dp])
      else pure (acc ++ [dp])) ([] : List (String × Dep))
  pure { m with deps := deps }

/-- MultiStepsJob.check_status (src/scheduler/job/multi_steps_job.py lines
529-581).  When the monitoring sweep saw a failure the source calls
`self.step_jobs[step_name][g_param_key].cancel()` on every sub-job — but
class Job (src/scheduler/job/job.py) defines no method `cancel`, so the
first such call raises AttributeError (the subsequent `self.fail(...)` is
reached only when there is no sub-job at all, which cannot coexist with a
failure).  In the FAILED final branch `self.fail(self.results)` passes the
job's own result dict as the error value. -/
def MSJob.checkStatus (m : MSJob) (poll : Job → Job) (now : Nat) : Except String MSJob := do
  if m.state ∈ [JobState.NEW, .READY, .CREATED, .COMPLETED, .FAILED] then pure m
  else
    let polled := m.pollStepJobs poll
    let m := polled.1
    if polled.2 then
      if m.stepJobs.any (fun sp => !sp.2.isEmpty) then
        .error "AttributeError: Job object has no attribute cancel"
      else
        pure (m.fail (some (.vDict [("error", .vStr ("Job " ++ m.jobId ++ " has failures"))])) now)
    else do
      let m ← m.rollUpStepStates
      let finalName ← match m.final with
        | some f => Except.ok f
        | none => Except.error "KeyError"
      let finalSt ← pyGet m.stepStates finalName
      if finalSt.state = .COMPLETED then do
        let m ← m.getFinalResults now
        pure (m.complete m.results now)
      else if finalSt.state = .FAILED then do
        let m ← m.getFinalResults now
        pure (m.fail (some (.vDict m.results)) now)
      else do
        let m ← m.updateDeps
        m.runReadySteps now

/-- Itertools `product(*lists)` in Python iteration order: the first list
varies slowest, each list's values appear in their declared order.  Used by
`MultiStepsJob._initialize` (src/scheduler/job/multi_steps_job.py line
256). -/
def pyProduct {α : Type} : List (List α) → List (List α)
  | [] => [[]]
  | l :: ls => l.flatMap (fun x => (pyProduct ls).map (fun t => x :: t))

/-- Code-point lexicographic less-or-equal on character lists.  This is the
order Python string comparison uses; it is implemented structurally (rather
than through core's extern `String.decLt`, which does not reduce in the
kernel) so that concrete sorts evaluate inside proofs. -/
def charListLe : List Char → List Char → Bool
  | [], _ => true
  | _ :: _, [] => false
  | c :: cs, d :: ds =>
    decide (c.toNat < d.toNat) || (decide (c.toNat = d.toNat) && charListLe cs ds)

/-- Code-point lexicographic strict order on character lists. -/
def charListLt : List Char → List Char → Bool
  | [], [] => false
  | [], _ :: _ => true
  | _ :: _, [] => false
  | c :: cs, d :: ds =>
    decide (c.toNat < d.toNat) || (decide (c.toNat = d.toNat) && charListLt cs ds)

/-- Python `a <= b` on strings (code-point lexicographic). -/
def strLeB (a b : String) : Bool := charListLe a.data b.data

/-- Python `a < b` on strings (code-point lexicographic). -/
def strLtB (a b : String) : Bool := charListLt a.data b.data

/-- Insertion of one element into a list sorted by the Boolean comparator
`leB` (the standard insertion-sort step, mirroring Python's stable
`sorted`). -/
def insertSortedBy {α : Type} (leB : α → α → Bool) (x : α) : List α → List α
  | [] => [x]
  | y :: ys => if leB x y then x :: y :: ys else y :: insertSortedBy leB x ys

/-- Insertion sort by a Boolean comparator (a stable sort, as Python's
`sorted`). -/
def sortByB {α : Type} (leB : α → α → Bool) : List α → List α
  | [] => []
  | x :: xs => insertSortedBy leB x (sortByB leB xs)

/-- Python `sorted(items)` on the (name, value) pairs of a dict: names within
one dict are unique, so the tuple comparison only ever exercises the name
component; we sort by name. -/
def sortByName (items : List (String × Scalar)) : List (String × Scalar) :=
  sortByB (fun a b => strLeB a.1 b.1) items

/-- The combination list of `MultiStepsJob._initialize`
(src/scheduler/job/multi_steps_job.py lines 255-257):
`sorted_keys = sorted(g_parameters.keys()); combinations = [dict(zip(
sorted_keys, values)) for values in product(*[g_parameters[k] for k in
sorted_keys])]`.  Each combination dict is in sorted-name key order. -/
def comboList (gp : List (String × List Scalar)) : List (List (String × Scalar)) :=
  let sortedKeys := sortByB strLeB (gp.map Prod.fst)
  (pyProduct (sortedKeys.map (fun k => (dictGet gp k).getD []))).map
    (fun vals => sortedKeys.zip vals)

/-- MultiStepsJob.get_key_from_dict (src/scheduler/job/multi_steps_job.py
lines 234-243): a falsy key (None or an empty dict) becomes the string
"None", otherwise `tuple(sorted(key.items()))`. -/
def getKeyFromDict (d : Option (List (String × Scalar))) : GKey :=
  match d with
  | none => .noneKey
  | some items => if items.isEmpty then .noneKey else .key (sortByName items)

/-- The dataset-name placeholder expansion of `MultiStepsJob._initialize`
(src/scheduler/job/multi_steps_job.py lines 287, 293, 324, 330):
`.replace("#global_parameter_key", g).replace("#trial_id",
trial_id).replace("#job_id", job_id)`. -/
def expandDatasetName (orig gStr trialId jobId : String) : String :=
  ((orig.replace "#global_parameter_key" gStr).replace "#trial_id" trialId).replace
    "#job_id" jobId

/-- The serialised global-parameter key of `MultiStepsJob._initialize`
(src/scheduler/job/multi_steps_job.py lines 320-322): join `f"{k}_{v}"`
fragments with "+", then replace every "+" by "plus" and every "-" by
"minus" (the join separators included). -/
def gParamStrOf (combo : List (String × Scalar)) : String :=
  (("+".intercalate ((sortByName combo).map (fun p => p.1 ++ "_" ++ p.2.pyStr))).replace
    "+" "plus").replace "-" "minus"

/-- Declarative step configuration: one value of the `objective_funcs` dict of
a MultiStepsFunction (src/scheduler/job/multi_steps_job.py lines 260-278
read these keys).  The opaque callable is a presence flag; `runner` is the
truthiness of the step's mandatory "runner" entry. -/
structure StepSpec where
  jobType : JobType := .FUNCTION
  hasFunc : Bool := true
  runner : Bool := false
  parentResultParameterName : Option String := none
  returnFuncResults : Bool := true
  withOutputDataset : Bool := false
  outputFile : Option String := none
  outputDataset : Option String := none
  numEvents : Nat := 1
  numEventsPerJob : Nat := 1
  withInputDatasets : Bool := false
  inputDatasets : Option (List (String × String)) := none

/-- A dependency declaration as accepted by `MultiStepsJob._initialize`
(src/scheduler/job/multi_steps_job.py lines 355-370): either a bare parent
step name or a dict with optional dep_type / dep_map. -/
inductive DepIn where
  | parentName (p : String)
  | parentSpec (p : String) (depType : Option String) (depMap : Option String)

/-- MultiStepsFunction (src/scheduler/job/multi_steps_job.py lines 16-60).
An empty `globalParameters` list models both `None` and `{}` (falsy). -/
structure MultiStepsFunction where
  objectiveFuncs : List (String × StepSpec)
  deps : List (String × DepIn) := []
  final : Option String := none
  globalParameters : List (String × List Scalar) := []
  globalParametersSteps : List String := []

/-- MultiStepsJob.get_step_job (src/scheduler/job/multi_steps_job.py lines
161-232) for the fields our claims touch: merge the trial parameters with
the step's additional (global) parameters and build the sub-job.  The
SCRIPT/CONTAINER arms of the source compare `self.job_type` — which is
always MULTISTEPSFUNCTION for a MultiStepsJob — so every step whose declared
job type is not FUNCTION reaches the `raise ValueError` arm.  The sub-job's
runner is the step's runner, falling back to `self.runner` when falsy
(`job.set_runner(runner)`). -/
def getStepJob (msParams : List (String × Value)) (trialId : String)
    (selfRunner : Bool) (spec : StepSpec)
    (additionalParameters : Option (List (String × Scalar)))
    (outputDataset : Option String) (inputDatasets : Option (List (String × String))) :
    Except String Job :=
  let newParams := match additionalParameters with
    | some add => dictUpdate msParams (add.map (fun p => (p.1, p.2.toValue)))
    | none => msParams
  if spec.jobType = JobType.FUNCTION then
    if !spec.hasFunc then .error "ValueError: Function must be provided for FUNCTION job type"
    else .ok { jobId := trialId ++ "_job",
               jobType := .FUNCTION,
               state := .CREATED,
               params := newParams,
               parentResultParameterName := spec.parentResultParameterName,
               returnFuncResults := spec.returnFuncResults,
               hasRunner := spec.runner || selfRunner,
               withOutputDataset := spec.withOutputDataset,
               outputFile := spec.outputFile,
               outputDataset := outputDataset,
               numEvents := spec.numEvents,
               numEventsPerJob := spec.numEventsPerJob,
               withInputDatasets := spec.withInputDatasets,
               inputDatasets := inputDatasets.getD [] }
  else .error "ValueError: Unsupported job type"

/-- Body of the per-step loop of `MultiStepsJob._initialize`
(src/scheduler/job/multi_steps_job.py lines 260-353): record the step state
and materialise one sub-job under the key "None" (when there are no
combinations or the step is outside `global_parameters_steps`) or one
sub-job per combination dict. -/
def initStep (f : MultiStepsFunction) (combos : List (List (String × Scalar)))
    (trialId jobId : String) (selfRunner : Bool) (m : MSJob)
    (stepName : String) (spec : StepSpec) : Except String MSJob := do
  let newState : StepState := { state := JobState.NEW, returnFuncResults := spec.returnFuncResults }
  let m := { m with stepStates := dictInsert stepName newState m.stepStates }
  if combos.isEmpty || stepName ∉ f.globalParametersSteps then
    let outputDataset := spec.outputDataset.map (fun od => expandDatasetName od "None" trialId jobId)
    let inputDatasets := spec.inputDatasets.map
      (fun idm => idm.map (fun p => (p.1, expandDatasetName p.2 "None" trialId jobId)))
    let job ← getStepJob m.params trialId selfRunner spec none outputDataset inputDatasets
    pure { m with stepJobs := dictInsert stepName [(GKey.noneKey, job)] m.stepJobs }
  else do
    let entries ← combos.foldlM (fun entries combo => do
        let gStr := gParamStrOf combo
        let outputDataset := spec.outputDataset.map (fun od => expandDatasetName od gStr trialId jobId)
        let inputDatasets := spec.inputDatasets.map
          (fun idm => idm.map (fun p => (p.1, expandDatasetName p.2 gStr trialId jobId)))
        let job ← getStepJob m.params trialId selfRunner spec (some combo) outputDataset inputDatasets
        pure (dictInsert (getKeyFromDict (some combo)) job entries)) ([] : List (GKey × Job))
    pure { m with stepJobs := dictInsert stepName entries m.stepJobs }

/-- MultiStepsJob construction followed by `_initialize`
(src/scheduler/job/multi_steps_job.py lines 70-150 and 245-378).
`selfRunner` is the value of `self.runner` while `_initialize` runs (in the
source this is always None, since `set_runner` is only called after
construction).  Note that `_initialize` never consults
`self.function.final`: `self.final` is None at entry, so the final step is
always the last step of `step_jobs` (or None when there are no steps). -/
def initMultiStepsJob (f : MultiStepsFunction) (params : List (String × Value))
    (trialId jobId : String) (selfRunner : Bool) : Except String MSJob := do
  let combos := if f.globalParameters.isEmpty then [] else comboList f.globalParameters
  let start : MSJob := { jobId := jobId, trialId := trialId, state := .CREATED,
                         params := params, hasRunner := selfRunner,
                         globalParameters := combos,
                         globalParametersSteps := f.globalParametersSteps }
  let m ← f.objectiveFuncs.foldlM
    (fun m sp => initStep f combos trialId jobId selfRunner m sp.1 sp.2) start
  let depsOut := f.deps.foldl (fun acc dp =>
      match dp.2 with
      | .parentName p =>
          dictInsert dp.1 { parent := p, state := JobState.NEW,
                            depType := "results", depMap := "one2one" } acc
      | .parentSpec p dt dm =>
          dictInsert dp.1 { parent := p, state := JobState.NEW,
                            depType := dt.getD "results", depMap := dm.getD "one2one" } acc)
    ([] : List (String × Dep))
  let m := { m with deps := depsOut }
  pure { m with final := (m.stepJobs.map Prod.fst).getLast? }

/-- Resolution of a future of the local worker-pool executor
(concurrent.futures): still pending, resolved with a value, or resolved
with an exception raised inside the submitted callable. -/
inductive FutureState where
  | pending
  | doneVal (v : List (String × Value))
  | doneExc (msg : String)

/-- Outcome of calling the job's payload `function(**params)`: a returned
metrics mapping or a raised exception.  (Non-mapping return values are
outside the model; the spec's result contract makes results mappings.) -/
inductive PyOutcome where
  | val (v : List (String × Value))
  | exc (msg : String)

/-- JobLibRunner._collect_output_files (src/scheduler/runners/joblib_runner.py
lines 278-304): when the job declares output files, read each (the file
system is the `readFile` argument; a failed read yields "File not found")
and store the mapping under `result_dict["output_files"]`. -/
def jlCollectOutputFiles (job : Job) (readFile : String → Option String)
    (resultDict : List (String × Value)) : List (String × Value) :=
  if job.outputFiles.isEmpty then resultDict
  else
    let fileResults := job.outputFiles.map (fun p =>
      (p, Value.vStr ((readFile p).getD "File not found")))
    if fileResults.isEmpty then resultDict
    else dictInsert "output_files" (Value.vDict fileResults) resultDict

/-- JobLibRunner._execute_function (src/scheduler/runners/joblib_runner.py
lines 56-104): run the payload in a 1-element joblib batch.  The whole body
runs under `try ... except Exception as e: return {"error": str(e)}`, so a
payload exception is returned as a VALUE, never re-raised: the future of a
function job always resolves with a value.  On success the single result is
unwrapped from the 1-element batch (`results[0]`) and output files are
collected into it. -/
def jlExecuteFunction (job : Job) (outcome : PyOutcome)
    (readFile : String → Option String) : List (String × Value) :=
  match outcome with
  | .exc msg => [("error", .vStr msg)]
  | .val v =>
      let results := [v]
      match results with
      | [r] => jlCollectOutputFiles job readFile r
      | _ => jlCollectOutputFiles job readFile v

/-- JobLibRunner.check_job_status (src/scheduler/runners/joblib_runner.py
lines 327-349): no future recorded, or a pending future, leaves the job
untouched; a future resolved with an exception fails the job; a future
resolved with a value completes the job (unless it is already COMPLETED). -/
def jlCheckJobStatus (future : Option FutureState) (job : Job) (now : Nat) : Job :=
  match future with
  | none => job
  | some .pending => job
  | some (.doneExc msg) => job.fail (some (.vStr msg)) now
  | some (.doneVal v) => if job.state ≠ JobState.COMPLETED then job.complete v now else job

/-- Python `str.strip()`: drop leading and trailing whitespace. -/
def pyStrip (s : String) : String :=
  ⟨((s.data.dropWhile Char.isWhitespace).reverse.dropWhile Char.isWhitespace).reverse⟩

/-- Accumulator loop for `pySplitWs` over the character list. -/
def splitWsAux : List Char → List Char → List String
  | [], acc => if acc.isEmpty then [] else [String.mk acc.reverse]
  | c :: cs, acc =>
    if c.isWhitespace then
      if acc.isEmpty then splitWsAux cs [] else String.mk acc.reverse :: splitWsAux cs []
    else splitWsAux cs (c :: acc)

/-- Python `str.split()` with no argument: split on whitespace runs,
dropping empty fragments. -/
def pySplitWs (s : String) : List String :=
  splitWsAux s.data []

/-- SlurmRunner.check_job_status (src/scheduler/runners/slurm_runner.py lines
286-334) as a function of the backend observations: the recorded slurm job
id, the `squeue` return code and stdout, the parsed contents of
`result.json` / `error.json` when those files exist, and the `sacct` stdout.
`sacct_result.stdout.strip().split()[0]` raises IndexError when the
accounting output is empty. -/
def slurmCheckJobStatus (slurmJobId : Option String) (squeueRC : Int)
    (squeueOut : String) (resultJson : Option (List (String × Value)))
    (errorJson : Option (List (String × Value))) (sacctOut : String)
    (job : Job) (now : Nat) : Except String Job :=
  match slurmJobId with
  | none => .ok job
  | some _ =>
    if squeueRC = 0 ∧ pyStrip squeueOut ≠ "" then .ok { job with state := .RUNNING }
    else match resultJson with
    | some results => .ok (job.complete results now)
    | none => match errorJson with
      | some err => .ok (job.fail (some ((dictGet err "error").getD (.vStr "Unknown error"))) now)
      | none =>
        match pySplitWs (pyStrip sacctOut) with
        | [] => .error "IndexError: list index out of range"
        | exitCode :: _ =>
          if exitCode = "0:0" then
            .ok (job.complete [("result", .vStr "Job completed but no results found")] now)
          else
            .ok (job.fail (some (.vStr ("Job failed with exit code " ++ exitCode))) now)

/-- A job held by a Trial: either a leaf Job or a MultiStepsJob (Trial code
calls the same run / check_status / is_running / is_completed / has_failed
interface on both). -/
inductive AnyJob where
  | plain (j : Job)
  | multi (m : MSJob)

/-- Dispatch of `job.run()` over the two job shapes. -/
def AnyJob.run (now : Nat) : AnyJob → Except String AnyJob
  | .plain j => (Job.run j now).map .plain
  | .multi m => (MSJob.run m now).map .multi

/-- Dispatch of `job.check_status()` over the two job shapes. -/
def AnyJob.checkStatus (poll : Job → Job) (now : Nat) : AnyJob → Except String AnyJob
  | .plain j => .ok (.plain (Job.checkStatus poll j))
  | .multi m => (MSJob.checkStatus m poll now).map .multi

/-- Dispatch of `job.is_running()`. -/
def AnyJob.isRunning : AnyJob → Bool
  | .plain j => j.isRunning
  | .multi m => m.state = .RUNNING

/-- Dispatch of `job.is_completed()`. -/
def AnyJob.isCompleted : AnyJob → Bool
  | .plain j => j.isCompleted
  | .multi m => m.isCompleted

/-- Dispatch of `job.has_failed()`. -/
def AnyJob.hasFailed : AnyJob → Bool
  | .plain j => j.hasFailed
  | .multi m => m.hasFailed

/-- A trial, from src/scheduler/trial/trial.py (class Trial). -/
structure Trial where
  trialId : String
  parameters : List (String × Value) := []
  jobs : List AnyJob := []
  state : TrialState := .CREATED
  startTime : Option Nat := none
  endTime : Option Nat := none
  results : List (String × Value) := []
  numChecks : Nat := 0

/-- Trial.run (src/scheduler/trial/trial.py lines 49-58): set RUNNING,
record the start time, run every job. -/
def Trial.run (t : Trial) (now : Nat) : Except String Trial := do
  let jobs ← t.jobs.mapM (AnyJob.run now)
  pure { t with state := .RUNNING, startTime := some now, jobs := jobs }

/-- Trial.check_status (src/scheduler/trial/trial.py lines 60-88): poll every
job, then derive the trial state: RUNNING if any job is running, else
COMPLETED if all jobs are completed (vacuously true for an empty job list),
else FAILED if any job has failed; otherwise the state is left unchanged.
The end time is recorded on the first terminal transition.  Returns the
updated trial together with the returned `self.state`. -/
def Trial.checkStatus (poll : Job → Job) (now : Nat) (t : Trial) :
    Except String (Trial × TrialState) := do
  let jobs ← t.jobs.mapM (AnyJob.checkStatus poll now)
  let t := { t with jobs := jobs }
  let t :=
    if jobs.any AnyJob.isRunning then { t with state := .RUNNING }
    else if jobs.all AnyJob.isCompleted then
      { t with state := .COMPLETED, endTime := if t.endTime = none then some now else t.endTime }
    else if jobs.any AnyJob.hasFailed then
      { t with state := .FAILED, endTime := if t.endTime = none then some now else t.endTime }
    else t
  let t := { t with numChecks := t.numChecks + 1 }
  pure (t, t.state)

/-- Trial.get_results (src/scheduler/trial/trial.py lines 90-102): merge the
result mapping of every completed job into the trial's results. -/
def Trial.getResults (t : Trial) : Trial :=
  let results := t.jobs.foldl (fun acc j =>
    match j with
    | .plain job => if job.isCompleted then dictUpdate acc job.results else acc
    | .multi m => if m.isCompleted then dictUpdate acc m.results else acc) t.results
  { t with results := results }

/-- AxScheduler._wait_for_trial_completion (src/scheduler/ax_scheduler.py
lines 265-289), used by the synchronous path of `run_trial`: poll the trial
until its state is terminal; stop polling on timeout (modelled as
exhaustion of the `polls` fuel list) leaving the trial in its current
state. -/
def waitForTrialCompletion (polls : List (Job → Job)) (now : Nat) (t : Trial) :
    Except String Trial :=
  match polls with
  | [] => .ok t
  | p :: rest => do
    let r ← t.checkStatus p now
    if r.2 ∈ [TrialState.COMPLETED, .FAILED, .CANCELLED] then pure r.1
    else waitForTrialCompletion rest now r.1

/-- The asynchronous monitoring loop of `AxScheduler.run_optimization`
(src/scheduler/ax_scheduler.py lines 390-398): `while trial.check_status()
not in [COMPLETED, FAILED, CANCELLED]: sleep`.  The loop has no timeout;
fuel exhaustion (`none`) models an execution still inside the loop, where no
completion has been reported yet. -/
def asyncMonitor (polls : List (Job → Job)) (now : Nat) (t : Trial) :
    Except String (Option Trial) :=
  match polls with
  | [] => .ok none
  | p :: rest => do
    let r ← t.checkStatus p now
    if r.2 ∈ [TrialState.COMPLETED, .FAILED, .CANCELLED] then pure (some r.1)
    else asyncMonitor rest now r.1

/-- One iteration of `AxScheduler.run_optimization` for one generated trial
(src/scheduler/ax_scheduler.py lines 378-405): run the trial (synchronously
waiting when configured), monitor it when asynchronous — including the
further `trial.check_status()` evaluated inside the debug log f-string on
line 399 — and finally decide whether `complete_trial` is invoked: exactly
when `trial.state == TrialState.COMPLETED`.  The returned Bool is that
decision. -/
def runOptimizationStep (synchronous : Bool) (syncPolls asyncPolls : List (Job → Job))
    (debugPoll : Job → Job) (now : Nat) (t : Trial) :
    Except String (Option (Trial × Bool)) := do
  let t ← t.run now
  if synchronous then do
    let t ← waitForTrialCompletion syncPolls now t
    pure (some (t, decide (t.state = TrialState.COMPLETED)))
  else do
    match ← asyncMonitor asyncPolls now t with
    | none => pure none
    | some t => do
      let r ← t.checkStatus debugPoll now
      pure (some (r.1, decide (r.1.state = TrialState.COMPLETED)))

/-- One iteration of `AxScheduler.monitor_trials` (src/scheduler/
ax_scheduler.py lines 411-423) for one known trial: poll it, then invoke
`complete_trial` exactly when the returned state is COMPLETED, the index is
still in the experiment, and the Ax-side trial is not already completed.
The returned Bool is that decision. -/
def monitorTrialsEntry (poll : Job → Job) (now : Nat)
    (inExperiment axTrialCompleted : Bool) (t : Trial) :
    Except String (Trial × Bool) := do
  let r ← t.checkStatus poll now
  pure (r.1, decide (r.2 = TrialState.COMPLETED) && inExperiment && !axTrialCompleted)

/-- AxScheduler.monitor_trials over the whole `self.trials` mapping. -/
def monitorTrials (poll : Job → Job) (now : Nat) (axInfo : Nat → Bool × Bool)
    (trials : List (Nat × Trial)) : Except String (List (Nat × Trial × Bool)) :=
  trials.mapM (fun p => do
    let r ← monitorTrialsEntry poll now (axInfo p.1).1 (axInfo p.1).2 p.2
    pure (p.1, r))

theorem dictGet_dictInsert_self {κ α : Type} [DecidableEq κ] (k : κ) (v : α)
    (l : List (κ × α)) : dictGet (dictInsert k v l) k = some v := by
  induction l with
  | nil => simp [dictInsert, dictGet]
  | cons p rest ih =>
    by_cases h : p.1 = k
    · simp [dictInsert, dictGet, h]
    · simp [dictInsert, dictGet, h, ih]

theorem dictGet_dictInsert_ne {κ α : Type} [DecidableEq κ] {k k2 : κ} (v : α)
    (l : List (κ × α)) (h : k2 ≠ k) : dictGet (dictInsert k v l) k2 = dictGet l k2 := by
  have hk : ¬ k = k2 := fun he => h he.symm
  induction l with
  | nil => simp [dictInsert, dictGet, hk]
  | cons p rest ih =>
    by_cases hp : p.1 = k
    · subst hp
      simp [dictInsert, dictGet, hk]
    · by_cases hpk : p.1 = k2 <;> simp [dictInsert, dictGet, hp, hpk, h, hk, ih]

theorem mem_dictInsert {κ α : Type} [DecidableEq κ] {k : κ} {v : α}
    {l : List (κ × α)} {q : κ × α} (h : q ∈ dictInsert k v l) : q = (k, v) ∨ q ∈ l := by
  induction l with
  | nil => simpa [dictInsert] using h
  | cons p rest ih =>
    by_cases hp : p.1 = k
    · simp only [dictInsert, hp, if_pos rfl] at h
      rcases List.mem_cons.mp h with h1 | h1
      · exact Or.inl h1
      · exact Or.inr (List.mem_cons_of_mem _ h1)
    · simp only [dictInsert, hp, if_neg hp] at h
      rcases List.mem_cons.mp h with h1 | h1
      · exact Or.inr (h1 ▸ List.mem_cons_self _ _)
      · rcases ih h1 with h2 | h2
        · exact Or.inl h2
        · exact Or.inr (List.mem_cons_of_mem _ h2)

theorem map_fst_dictInsert_of_not_mem {κ α : Type} [DecidableEq κ] {k : κ} (v : α)
    {l : List (κ × α)} (h : k ∉ l.map Prod.fst) :
    (dictInsert k v l).map Prod.fst = l.map Prod.fst ++ [k] := by
  induction l with
  | nil => simp [dictInsert]
  | cons p rest ih =>
    simp only [List.map_cons, List.mem_cons] at h
    push_neg at h
    have hp : ¬ p.1 = k := fun he => h.1 he.symm
    simp [dictInsert, hp, ih h.2]

theorem length_dictInsert_of_not_mem {κ α : Type} [DecidableEq κ] {k : κ} (v : α)
    {l : List (κ × α)} (h : k ∉ l.map Prod.fst) :
    (dictInsert k v l).length = l.length + 1 := by
  have := map_fst_dictInsert_of_not_mem (k := k) v (l := l) h
  have h2 : ((dictInsert k v l).map Prod.fst).length = (l.map Prod.fst ++ [k]).length := by
    rw [this]
  simpa using h2

theorem dictGet_eq_some_of_mem_nodup {κ α : Type} [DecidableEq κ] {l : List (κ × α)}
    {k : κ} {v : α} (hn : (l.map Prod.fst).Nodup) (hm : (k, v) ∈ l) :
    dictGet l k = some v := by
  induction l with
  | nil => cases hm
  | cons p rest ih =>
    simp only [List.map_cons, List.nodup_cons] at hn
    rcases List.mem_cons.mp hm with h1 | h1
    · simp [dictGet, ← h1]
    · have hne : p.1 ≠ k := by
        intro he
        exact hn.1 (he ▸ (List.mem_map.mpr ⟨(k, v), h1, rfl⟩))
      simp [dictGet, hne, ih hn.2 h1]

/-- Claim C1 failing input: a MultiStepsJob mid-flight whose step "simreco"
has one FAILED and one still-RUNNING sub-job, and whose step "ana" (the
final step) has one untouched sub-job. -/
def claimOneFailedSub : Job := { jobId := "s1", state := .FAILED, hasRunner := true }

/-- Claim C1 failing input: the sibling sub-job still running when the
failure is observed. -/
def claimOneRunningSub : Job := { jobId := "s2", state := .RUNNING, hasRunner := true }

/-- Claim C1 failing input: the downstream sub-job. -/
def claimOneAnaSub : Job := { jobId := "a", state := .CREATED, hasRunner := true }

/-- Claim C1 failing input: the MultiStepsJob assembled from the three
sub-jobs, polled while RUNNING. -/
def claimOneMSJob : MSJob :=
  { jobId := "mj", state := .RUNNING,
    stepJobs := [("simreco",
        [(GKey.key [("p", .s "a")], claimOneFailedSub),
         (GKey.key [("p", .s "b")], claimOneRunningSub)]),
      ("ana", [(GKey.noneKey, claimOneAnaSub)])],
    stepStates := [("simreco", { state := .RUNNING, returnFuncResults := true }),
                   ("ana", { state := .NEW, returnFuncResults := true })],
    deps := [("ana", { parent := "simreco", state := .NEW, depType := "results", depMap := "all2one" })],
    final := some "ana" }

/-- Claim C1: the spec says that when a status check finds a FAILED sub-job,
every other non-terminal sub-job is cancelled (reaching CANCELLED in the
same poll) and the MultiStepsJob is marked FAILED.  The code cannot do
either: `MultiStepsJob.check_status` calls `.cancel()` on the sub-jobs, but
class Job defines no `cancel` method, so the first call raises
AttributeError before any cancellation or `self.fail` — here shown on a
concrete poll (with a backend poll that leaves running jobs unchanged). -/
theorem claimOne_cancel_raises_attribute_error :
    MSJob.checkStatus claimOneMSJob (fun j => j) 3 =
      .error "AttributeError: Job object has no attribute cancel" := rfl

/-- Claim C4 counterexample input: a job with a runner bound. -/
def claimFourJob : Job := { jobId := "j4", hasRunner := true }

/-- Claim C4 counterexample: the claim says a second `run()` is refused.  On
this concrete job the first `run` succeeds, and invoking `run` again on the
resulting (already RUNNING) job succeeds as well — the method body runs to
completion, resubmitting to the runner, instead of failing. -/
theorem claimFour_counterexample :
    Job.run claimFourJob 0 = .ok { claimFourJob with state := .RUNNING, startTime := some 0 } ∧
    Job.run { claimFourJob with state := .RUNNING, startTime := some 0 } 1 =
      .ok { claimFourJob with state := .RUNNING, startTime := some 1 } := ⟨rfl, rfl⟩

/-- Claim C4 amended: `Job.run` is refused exactly when no runner is bound;
when a runner is bound it always succeeds — marking the job RUNNING,
stamping the start time and submitting to the runner — regardless of any
earlier `run`, so a second call re-runs rather than being refused. -/
theorem claimFour_amended (j : Job) (now now2 : Nat) :
    ((∃ j2, Job.run j now = .ok j2) ↔ j.hasRunner = true) ∧
    (j.hasRunner = true →
      Job.run j now = .ok { j with state := .RUNNING, startTime := some now } ∧
      Job.run { j with state := .RUNNING, startTime := some now } now2 =
        .ok { j with state := .RUNNING, startTime := some now2 }) := by
  constructor
  · constructor
    · intro h
      rcases h with ⟨j2, h⟩
      by_cases hr : j.hasRunner
      · exact hr
      · simp [Job.run, hr] at h
    · intro hr
      exact ⟨{ j with state := .RUNNING, startTime := some now }, by simp [Job.run, hr]⟩
  · intro hr
    exact ⟨by simp [Job.run, hr], by simp [Job.run, hr]⟩

/-- Claim C4 amended witness at the concrete job of the counterexample. -/
theorem claimFour_amended_witness :
    ((∃ j2, Job.run claimFourJob 0 = .ok j2) ↔ claimFourJob.hasRunner = true) ∧
    (claimFourJob.hasRunner = true →
      Job.run claimFourJob 0 = .ok { claimFourJob with state := .RUNNING, startTime := some 0 } ∧
      Job.run { claimFourJob with state := .RUNNING, startTime := some 0 } 1 =
        .ok { claimFourJob with state := .RUNNING, startTime := some 1 }) :=
  claimFour_amended claimFourJob 0 1

/-- Claim C6 counterexample input: a running function-kind job whose payload
will raise. -/
def claimSixJob : Job := { jobId := "f1", state := .RUNNING, hasRunner := true }

/-- Claim C6 counterexample: the claim says a payload exception leads the
next poll to mark the job FAILED.  On this concrete job whose payload raises
"boom", `_execute_function` catches the exception and returns
`{"error": "boom"}` as the future's VALUE, so `check_job_status` marks the
job COMPLETED (with the error mapping as its results), not FAILED. -/
theorem claimSix_counterexample :
    (jlCheckJobStatus
        (some (.doneVal (jlExecuteFunction claimSixJob (.exc "boom") (fun _ => none))))
        claimSixJob 4).state = JobState.COMPLETED ∧
    (jlCheckJobStatus
        (some (.doneVal (jlExecuteFunction claimSixJob (.exc "boom") (fun _ => none))))
        claimSixJob 4).results = [("error", Value.vStr "boom")] ∧
    JobState.COMPLETED ≠ JobState.FAILED := ⟨rfl, rfl, by decide⟩

/-- Claim C6 amended: for a function-kind job run by the worker-pool runner,
a payload exception is caught inside `_execute_function` and returned as the
value `{"error": str(e)}`, so the next poll marks the job COMPLETED with
that error mapping; a future resolved with a value likewise completes the
job with the single result unwrapped from its 1-element batch (with output
files collected into it); the job is marked FAILED only when the future
itself resolved with an exception. -/
theorem claimSix_amended (job : Job) (readFile : String → Option String)
    (msg : String) (v : List (String × Value)) (now : Nat)
    (hstate : job.state ≠ JobState.COMPLETED) :
    jlCheckJobStatus (some (.doneVal (jlExecuteFunction job (.exc msg) readFile))) job now =
      job.complete [("error", .vStr msg)] now ∧
    (jlCheckJobStatus (some (.doneVal (jlExecuteFunction job (.exc msg) readFile))) job now).state =
      JobState.COMPLETED ∧
    jlCheckJobStatus (some (.doneVal (jlExecuteFunction job (.val v) readFile))) job now =
      job.complete (jlCollectOutputFiles job readFile v) now ∧
    jlCheckJobStatus (some (.doneExc msg)) job now = job.fail (some (.vStr msg)) now ∧
    (jlCheckJobStatus (some (.doneExc msg)) job now).state = JobState.FAILED := by
  refine ⟨?_, ?_, ?_, ?_, ?_⟩
  · simp [jlCheckJobStatus, jlExecuteFunction, hstate]
  · simp [jlCheckJobStatus, jlExecuteFunction, hstate, Job.complete]
  · simp [jlCheckJobStatus, jlExecuteFunction, hstate]
  · simp [jlCheckJobStatus]
  · simp only [jlCheckJobStatus, Job.fail]
    by_cases hm : Value.isTruthy (.vStr msg) <;> simp [hm]

/-- Claim C6 amended witness at the concrete inputs of the counterexample. -/
theorem claimSix_amended_witness :
    claimSixJob.state ≠ JobState.COMPLETED ∧
    jlCheckJobStatus
        (some (.doneVal (jlExecuteFunction claimSixJob (.exc "boom") (fun _ => none))))
        claimSixJob 4 = claimSixJob.complete [("error", .vStr "boom")] 4 :=
  ⟨by decide,
   (claimSix_amended claimSixJob (fun _ => none) "boom" [("objective", .vInt 1)] 4
     (by decide)).1⟩

/-- Claim C7 failing input: one COMPLETED sub-job of the final step. -/
def claimSevenSub1 : Job :=
  { jobId := "a1", state := .COMPLETED, results := [("obj", .vInt 1)], hasRunner := true }

/-- Claim C7 failing input: the second COMPLETED sub-job of the final step. -/
def claimSevenSub2 : Job :=
  { jobId := "a2", state := .COMPLETED, results := [("obj", .vInt 2)], hasRunner := true }

/-- Claim C7 failing input: a RUNNING MultiStepsJob whose final step "ana"
was fanned out into two sub-jobs, both completed. -/
def claimSevenMSJob : MSJob :=
  { jobId := "mj", state := .RUNNING,
    stepJobs := [("ana", [(GKey.key [("p", .s "a")], claimSevenSub1),
                          (GKey.key [("p", .s "b")], claimSevenSub2)])],
    stepStates := [("ana", { state := .RUNNING, returnFuncResults := true })],
    final := some "ana" }

/-- Claim C7: the spec makes a fanned-out final step a fatal error — the
MultiStepsJob must end FAILED.  In the code `get_final_results` does call
`self.fail(...)` but does not return: it then overwrites `self.results` with
the first sub-job's results, and `check_status` — whose final step is
COMPLETED — proceeds to `self.complete(self.results)`, so on this concrete
poll the MultiStepsJob ends COMPLETED with the first sub-job's results and
no recorded error. -/
theorem claimSeven_completes_despite_fanout :
    (MSJob.checkStatus claimSevenMSJob (fun j => j) 5).map
        (fun m => (m.state, m.results)) =
      .ok (JobState.COMPLETED, [("obj", Value.vInt 1)]) ∧
    JobState.COMPLETED ≠ JobState.FAILED := ⟨rfl, by decide⟩

theorem append_ne_empty_of_left {a b : String} (h : a ≠ "") : a ++ b ≠ "" := by
  intro he
  apply h
  have hl : (a ++ b).length = 0 := by rw [he]; rfl
  rw [String.length_append] at hl
  have : a.length = 0 := by omega
  cases a with
  | mk data =>
    cases data with
    | nil => rfl
    | cons c cs => simp [String.length, List.length] at this

/-- Claim C8: for a Slurm job that is recorded by the runner, absent from the
queue, with neither result.json nor error.json present, polling consults the
accounting exit code: "0:0" completes the job with the synthetic results
`{"result": "Job completed but no results found"}`; any other exit code
fails the job with the exit code recorded in its error. -/
theorem claimEight_accounting_fallback (slurmId : String) (squeueRC : Int)
    (squeueOut sacctOut : String) (job : Job) (now : Nat) (ec : String)
    (rest : List String)
    (hqueue : ¬(squeueRC = 0 ∧ pyStrip squeueOut ≠ ""))
    (hsacct : pySplitWs (pyStrip sacctOut) = ec :: rest) :
    ∃ j2, slurmCheckJobStatus (some slurmId) squeueRC squeueOut none none sacctOut job now =
        .ok j2 ∧
      (ec = "0:0" →
        j2.state = JobState.COMPLETED ∧
        j2.results = [("result", Value.vStr "Job completed but no results found")]) ∧
      (ec ≠ "0:0" →
        j2.state = JobState.FAILED ∧
        dictGet j2.results "error" =
          some (Value.vStr ("Job failed with exit code " ++ ec))) := by
  by_cases hec : ec = "0:0"
  · refine ⟨job.complete [("result", Value.vStr "Job completed but no results found")] now,
      ?_, ?_, ?_⟩
    · simp [slurmCheckJobStatus, hqueue, hsacct, hec]
    · intro _
      exact ⟨rfl, rfl⟩
    · intro h
      exact absurd hec h
  · refine ⟨job.fail (some (Value.vStr ("Job failed with exit code " ++ ec))) now, ?_, ?_, ?_⟩
    · simp [slurmCheckJobStatus, hqueue, hsacct, hec]
    · intro h
      exact absurd h hec
    · intro _
      constructor
      · rfl
      · have htr : Value.isTruthy (Value.vStr ("Job failed with exit code " ++ ec)) = true := by
          simp [Value.isTruthy]
          exact append_ne_empty_of_left (by decide)
        simp [Job.fail, htr, dictGet_dictInsert_self]

/-- Claim C8 witness: the accounting fallback applied to a concrete finished
job with exit code "0:0". -/
theorem claimEight_witness :
    (¬((0 : Int) = 0 ∧ pyStrip "" ≠ "")) ∧
    pySplitWs (pyStrip " 0:0 ") = "0:0" :: [] ∧
    ∃ j2, slurmCheckJobStatus (some "123") 0 "" none none " 0:0 "
        { jobId := "s8", state := .RUNNING, hasRunner := true } 9 = .ok j2 ∧
      ("0:0" = "0:0" →
        j2.state = JobState.COMPLETED ∧
        j2.results = [("result", Value.vStr "Job completed but no results found")]) ∧
      ("0:0" ≠ "0:0" →
        j2.state = JobState.FAILED ∧
        dictGet j2.results "error" =
          some (Value.vStr ("Job failed with exit code " ++ "0:0"))) :=
  ⟨by decide, by rfl,
   claimEight_accounting_fallback "123" 0 "" " 0:0 "
     { jobId := "s8", state := .RUNNING, hasRunner := true } 9 "0:0" []
     (by decide) (by rfl)⟩

/-- Claim C10: a Trial holding zero jobs becomes COMPLETED on a
`check_status` call (the all-jobs-completed test is vacuously true for an
empty job list), recording an end time, even though no job was ever run. -/
theorem claimTen_empty_trial_completes (t : Trial) (poll : Job → Job) (now : Nat)
    (hjobs : t.jobs = []) (hend : t.endTime = none) :
    ∃ t2, Trial.checkStatus poll now t = .ok (t2, TrialState.COMPLETED) ∧
      t2.state = TrialState.COMPLETED ∧ t2.endTime = some now ∧ t2.jobs = [] := by
  refine ⟨{ t with jobs := [], state := TrialState.COMPLETED, endTime := some now, numChecks := t.numChecks + 1 }, ?_, rfl, rfl, rfl⟩
  simp [Trial.checkStatus, hjobs, hend, bind, Except.bind, pure, Except.pure, List.mapM, List.mapM.loop]

/-- Claim C10 witness: a freshly created empty trial completes on its first
status check. -/
theorem claimTen_witness :
    ({ trialId := "t0" } : Trial).jobs = [] ∧
    ({ trialId := "t0" } : Trial).endTime = none ∧
    ∃ t2, Trial.checkStatus (fun j => j) 7 { trialId := "t0" } =
        .ok (t2, TrialState.COMPLETED) ∧
      t2.state = TrialState.COMPLETED ∧ t2.endTime = some 7 ∧ t2.jobs = [] :=
  ⟨rfl, rfl, claimTen_empty_trial_completes { trialId := "t0" } (fun j => j) 7 rfl rfl⟩

theorem trial_checkStatus_snd (poll : Job → Job) (now : Nat) (t : Trial)
    (r : Trial × TrialState) (h : Trial.checkStatus poll now t = .ok r) :
    r.2 = r.1.state := by
  unfold Trial.checkStatus at h
  cases hm : t.jobs.mapM (AnyJob.checkStatus poll now) with
  | error e =>
    rw [hm] at h
    simp [bind, Except.bind] at h
  | ok js =>
    rw [hm] at h
    simp only [bind, Except.bind, pure, Except.pure, Except.ok.injEq] at h
    subst h
    rfl

/-- Claim C9: in the scheduler loop (`run_optimization`) and in
`monitor_trials`, `complete_trial` is invoked only when the trial's state is
COMPLETED, so a trial whose state is FAILED is never passed to
`complete_trial` and its results are never reported to the optimizer. -/
theorem claimNine_failed_never_completed :
    (∀ (sync : Bool) (syncPolls asyncPolls : List (Job → Job)) (debugPoll : Job → Job)
        (now : Nat) (t trialOut : Trial) (didComplete : Bool),
      runOptimizationStep sync syncPolls asyncPolls debugPoll now t =
          .ok (some (trialOut, didComplete)) →
      trialOut.state = TrialState.FAILED → didComplete = false) ∧
    (∀ (poll : Job → Job) (now : Nat) (inExp axC : Bool) (t trialOut : Trial)
        (didComplete : Bool),
      monitorTrialsEntry poll now inExp axC t = .ok (trialOut, didComplete) →
      trialOut.state = TrialState.FAILED → didComplete = false) := by
  constructor
  · intro sync sp ap dp now t tr b h hf
    unfold runOptimizationStep at h
    cases hr : Trial.run t now with
    | error e =>
      rw [hr] at h
      simp [bind, Except.bind] at h
    | ok t1 =>
      rw [hr] at h
      simp only [bind, Except.bind] at h
      by_cases hs : sync
      · rw [if_pos hs] at h
        cases hw : waitForTrialCompletion sp now t1 with
        | error e =>
          rw [hw] at h
          simp [bind, Except.bind] at h
        | ok t2 =>
          rw [hw] at h
          simp only [bind, Except.bind, pure, Except.pure, Except.ok.injEq,
            Option.some.injEq, Prod.mk.injEq] at h
          obtain ⟨h1, h2⟩ := h
          subst h1
          rw [← h2]
          simp [hf]
      · rw [if_neg hs] at h
        cases ha : asyncMonitor ap now t1 with
        | error e =>
          rw [ha] at h
          simp [bind, Except.bind] at h
        | ok o =>
          rw [ha] at h
          cases o with
          | none => simp [bind, Except.bind, pure, Except.pure] at h
          | some t2 =>
            simp only [bind, Except.bind] at h
            cases hc : Trial.checkStatus dp now t2 with
            | error e =>
              rw [hc] at h
              simp [bind, Except.bind] at h
            | ok r =>
              rw [hc] at h
              simp only [bind, Except.bind, pure, Except.pure, Except.ok.injEq,
                Option.some.injEq, Prod.mk.injEq] at h
              obtain ⟨h1, h2⟩ := h
              subst h1
              rw [← h2]
              simp [hf]
  · intro poll now inExp axC t tr b h hf
    unfold monitorTrialsEntry at h
    cases hc : Trial.checkStatus poll now t with
    | error e =>
      rw [hc] at h
      simp [bind, Except.bind] at h
    | ok r =>
      have hsnd := trial_checkStatus_snd poll now t r hc
      rw [hc] at h
      simp only [bind, Except.bind, pure, Except.pure, Except.ok.injEq, Prod.mk.injEq] at h
      obtain ⟨h1, h2⟩ := h
      subst h1
      rw [← h2]
      rw [hsnd, hf]
      simp

/-- Claim C9 witness input: a running trial with a single running plain
job. -/
def claimNineTrial : Trial :=
  { trialId := "t9", state := .RUNNING,
    jobs := [.plain { jobId := "j9", state := .RUNNING, hasRunner := true }] }

/-- Claim C9 witness input: a backend poll that reports the job FAILED. -/
def claimNineFailPoll : Job → Job := fun j => { j with state := .FAILED }

/-- Claim C9 witness input: the trial as updated by the monitored poll. -/
def claimNineTrialOut : Trial :=
  match monitorTrialsEntry claimNineFailPoll 0 true false claimNineTrial with
  | .ok r => r.1
  | .error _ => claimNineTrial

/-- Claim C9 witness: on a concrete poll that fails the trial,
`monitor_trials` does not invoke `complete_trial`. -/
theorem claimNine_witness :
    monitorTrialsEntry claimNineFailPoll 0 true false claimNineTrial =
      .ok (claimNineTrialOut, false) ∧
    claimNineTrialOut.state = TrialState.FAILED ∧ (false : Bool) = false :=
  ⟨rfl, rfl,
   claimNine_failed_never_completed.2 claimNineFailPoll 0 true false claimNineTrial
     claimNineTrialOut false rfl rfl⟩

/-- Claim C2 input: first parent sub-job of step "ana" (fan-out key
(p, a)), completed with result mapping {xyz: 1}. -/
def claimTwoParent1 : Job :=
  { jobId := "a1", state := .COMPLETED, results := [("xyz", .vInt 1)], hasRunner := true }

/-- Claim C2 input: second parent sub-job of step "ana" (fan-out key
(p, b)), completed with result mapping {xyz: 2}. -/
def claimTwoParent2 : Job :=
  { jobId := "a2", state := .COMPLETED, results := [("xyz", .vInt 2)], hasRunner := true }

/-- Claim C2 input: the child step's single sub-job, with
parent_result_parameter "xyz". -/
def claimTwoChildIn : Job :=
  { jobId := "f", state := .CREATED, parentResultParameterName := some "xyz",
    hasRunner := true }

/-- Claim C2 input: the fan-out key of the first parent sub-job. -/
def claimTwoK1 : GKey := .key [("p", .s "a")]

/-- Claim C2 input: the fan-out key of the second parent sub-job. -/
def claimTwoK2 : GKey := .key [("p", .s "b")]

/-- Claim C2 input: a RUNNING MultiStepsJob whose step "ana" (two completed
fan-out sub-jobs) feeds step "final" (one sub-job) over a READY
dep_type=results, dep_map=all2one edge. -/
def claimTwoMSJob : MSJob :=
  { jobId := "m2", state := .RUNNING,
    stepJobs := [("ana", [(claimTwoK1, claimTwoParent1), (claimTwoK2, claimTwoParent2)]),
                 ("final", [(GKey.noneKey, claimTwoChildIn)])],
    stepStates := [("ana", { state := .COMPLETED, returnFuncResults := true }),
                   ("final", { state := .NEW, returnFuncResults := true })],
    deps := [("final", { parent := "ana", state := .READY, depType := "results", depMap := "all2one" })],
    final := some "final" }

/-- Claim C2: the child sub-job of the concrete MultiStepsJob after
`run_ready_steps` ran its ready "final" step. -/
def claimTwoChildOut : Option Job :=
  match MSJob.runReadySteps claimTwoMSJob 0 with
  | .ok m => (dictGet m.stepJobs "final").bind (fun entries => dictGet entries GKey.noneKey)
  | .error _ => none

/-- Claim C2 counterexample: the claim says the whole aggregated mapping
{metric: {parent_key: value}} is injected as one value under the child's
parent_result_parameter name.  On this concrete fan-in the child does
receive the whole mapping (stored in `parent_results`), but the value
injected under "xyz" in its parameter mapping is `mapping.get("xyz")` — the
inner per-key dict — not the whole mapping. -/
theorem claimTwo_counterexample :
    claimTwoChildOut.map (fun j => j.parentResults) =
      some (some [("xyz", Value.vKeyDict [(claimTwoK1, .vInt 1), (claimTwoK2, .vInt 2)])]) ∧
    claimTwoChildOut.map (fun j => dictGet j.params "xyz") =
      some (some (Value.vKeyDict [(claimTwoK1, .vInt 1), (claimTwoK2, .vInt 2)])) ∧
    Value.vKeyDict [(claimTwoK1, .vInt 1), (claimTwoK2, .vInt 2)] ≠
      Value.vDict [("xyz", Value.vKeyDict [(claimTwoK1, .vInt 1), (claimTwoK2, .vInt 2)])] :=
  ⟨rfl, rfl, fun h => Value.noConfusion h⟩

theorem agg_inner_pred (gk : GKey) (rs : List (String × Value)) :
    ∀ acc : List (String × Value), (∀ p ∈ acc, ∃ i, p.2 = Value.vKeyDict i) →
    ∀ p ∈ rs.foldl (fun acc2 mv =>
        dictInsert mv.1 (Value.vKeyDict (dictInsert gk mv.2
          (match dictGet acc2 mv.1 with
           | some (Value.vKeyDict inner) => inner
           | _ => []))) acc2) acc,
      ∃ i, p.2 = Value.vKeyDict i := by
  induction rs with
  | nil =>
    intro acc hacc p hp
    exact hacc p hp
  | cons mv rest ih =>
    intro acc hacc p hp
    refine ih _ ?_ p hp
    intro q hq
    rcases mem_dictInsert hq with h1 | h1
    · exact ⟨_, by rw [h1]⟩
    · exact hacc q h1

theorem agg_outer_pred (l : List (GKey × Job)) :
    ∀ acc : List (String × Value), (∀ p ∈ acc, ∃ i, p.2 = Value.vKeyDict i) →
    ∀ p ∈ l.foldl (fun acc pj => pj.2.results.foldl (fun acc2 mv =>
        dictInsert mv.1 (Value.vKeyDict (dictInsert pj.1 mv.2
          (match dictGet acc2 mv.1 with
           | some (Value.vKeyDict inner) => inner
           | _ => []))) acc2) acc) acc,
      ∃ i, p.2 = Value.vKeyDict i := by
  induction l with
  | nil =>
    intro acc hacc p hp
    exact hacc p hp
  | cons pj rest ih =>
    intro acc hacc p hp
    exact ih _ (agg_inner_pred pj.1 pj.2.results acc hacc) p hp

theorem aggregateAll2One_shape (parentJobs : List (GKey × Job)) :
    ∀ p ∈ aggregateAll2One parentJobs, ∃ i, p.2 = Value.vKeyDict i := by
  intro p hp
  exact agg_outer_pred parentJobs [] (by simp) p hp

/-- Claim C2 amended: for a `dep_type=results`, `dep_map=all2one` edge with
a non-empty parent step, `get_parent_results` returns the aggregated mapping
built by iterating every parent sub-job — a mapping whose every value is a
dict keyed by parent fan-out keys — and `set_parent_results` stores that
whole mapping in the child's `parent_results`, but the value injected into
the child's parameter mapping under `parent_result_parameter` is
`mapping.get(name)` (None when absent), not the whole mapping. -/
theorem claimTwo_amended (m : MSJob) (c : String) (k : GKey) (j : Job)
    (dep : Dep) (parentJobs : List (GKey × Job)) (name : String)
    (hdep : dictGet m.deps c = some dep)
    (htype : dep.depType = "results") (hmap : dep.depMap = "all2one")
    (hpj : dictGet m.stepJobs dep.parent = some parentJobs)
    (hne : parentJobs ≠ []) (hname : j.parentResultParameterName = some name) :
    MSJob.getParentResults m j c k = .ok (true, some (aggregateAll2One parentJobs), j) ∧
    (j.setParentResults (aggregateAll2One parentJobs)).parentResults =
      some (aggregateAll2One parentJobs) ∧
    (aggregateAll2One parentJobs ≠ [] →
      (j.setParentResults (aggregateAll2One parentJobs)).params =
        dictInsert name ((dictGet (aggregateAll2One parentJobs) name).getD .vNone) j.params) ∧
    (∀ p ∈ aggregateAll2One parentJobs, ∃ i, p.2 = Value.vKeyDict i) := by
  refine ⟨?_, ?_, ?_, aggregateAll2One_shape parentJobs⟩
  · have hne2 : parentJobs.isEmpty = false := by
      cases parentJobs with
      | nil => exact absurd rfl hne
      | cons a l => rfl
    simp [MSJob.getParentResults, hdep, hpj, htype, hmap, hne2]
  · simp only [Job.setParentResults, hname]
    split <;> rfl
  · intro hA
    have hA2 : (aggregateAll2One parentJobs).isEmpty = false := by
      cases hAgg : aggregateAll2One parentJobs with
      | nil => exact absurd hAgg hA
      | cons a l => rfl
    simp [Job.setParentResults, hname, hA2]

/-- Claim C2 amended witness at the concrete fan-in of the counterexample. -/
theorem claimTwo_amended_witness :
    MSJob.getParentResults claimTwoMSJob claimTwoChildIn "final" GKey.noneKey =
      .ok (true, some (aggregateAll2One [(claimTwoK1, claimTwoParent1), (claimTwoK2, claimTwoParent2)]),
           claimTwoChildIn) ∧
    (claimTwoChildIn.setParentResults
        (aggregateAll2One [(claimTwoK1, claimTwoParent1), (claimTwoK2, claimTwoParent2)])).parentResults =
      some (aggregateAll2One [(claimTwoK1, claimTwoParent1), (claimTwoK2, claimTwoParent2)]) ∧
    (aggregateAll2One [(claimTwoK1, claimTwoParent1), (claimTwoK2, claimTwoParent2)] ≠ [] →
      (claimTwoChildIn.setParentResults
          (aggregateAll2One [(claimTwoK1, claimTwoParent1), (claimTwoK2, claimTwoParent2)])).params =
        dictInsert "xyz"
          ((dictGet (aggregateAll2One [(claimTwoK1, claimTwoParent1), (claimTwoK2, claimTwoParent2)])
              "xyz").getD .vNone)
          claimTwoChildIn.params) ∧
    (∀ p ∈ aggregateAll2One [(claimTwoK1, claimTwoParent1), (claimTwoK2, claimTwoParent2)],
      ∃ i, p.2 = Value.vKeyDict i) :=
  claimTwo_amended claimTwoMSJob "final" GKey.noneKey claimTwoChildIn
    { parent := "ana", state := .READY, depType := "results", depMap := "all2one" }
    [(claimTwoK1, claimTwoParent1), (claimTwoK2, claimTwoParent2)] "xyz"
    rfl rfl rfl rfl (List.cons_ne_nil _ _) rfl

/-- Strict order on scalar values as the spec's "value tuple" comparison
would need it (values of one global parameter share a type; the cross-type
arms are arbitrary and never exercised by the claims). -/
def scalarLtB : Scalar → Scalar → Bool
  | .s a, .s b => strLtB a b
  | .i a, .i b => decide (a < b)
  | .i _, .s _ => true
  | .s _, .i _ => false

/-- Strict order on (name, value) pairs: by name, then by value — the
comparison the spec's "lexicographically ordered by parameter name and value
tuple" induces on pair entries. -/
def pairLtB (a b : String × Scalar) : Bool :=
  strLtB a.1 b.1 || (a.1 == b.1 && scalarLtB a.2 b.2)

/-- Lexicographic less-or-equal on canonical key tuples, as the spec's
claimed ordering of the global-parameter key list. -/
def keyLexLeB : List (String × Scalar) → List (String × Scalar) → Bool
  | [], _ => true
  | _ :: _, [] => false
  | a :: as, b :: bs => pairLtB a b || (a == b && keyLexLeB as bs)

/-- Claim C5 input: the S2 template — global parameters
particles=[pi+, kaon+] (declared in that order) and eta_points=[0.1, 0.2]
over steps simreco and ana. -/
def claimFiveFunc : MultiStepsFunction :=
  { objectiveFuncs := [("simreco", { runner := true }), ("ana", { runner := true }),
                       ("final", { runner := true })],
    deps := [("ana", .parentSpec "simreco" (some "datasets") (some "one2one")),
             ("final", .parentSpec "ana" (some "results") (some "all2one"))],
    globalParameters := [("particles", [.s "pi+", .s "kaon+"]), ("eta_points", [.s "0.1", .s "0.2"])],
    globalParametersSteps := ["simreco", "ana"] }

/-- Claim C5: the global-parameter key list produced by initializing the S2
template. -/
def claimFiveKeys : List (List (String × Scalar)) :=
  match initMultiStepsJob claimFiveFunc [] "trial_0" "tj" false with
  | .ok m => m.globalParameters
  | .error _ => []

/-- Claim C5 counterexample: the claim says the key list is lexicographically
ordered by parameter name AND value tuple (in S2: kaon+ before pi+).  The
code sorts only the parameter NAMES; each parameter's values keep their
declared list order, so the S2 key list has pi+ before kaon+ and is not
sorted under the claimed lexicographic order. -/
theorem claimFive_counterexample :
    claimFiveKeys =
      [[("eta_points", .s "0.1"), ("particles", .s "pi+")],
       [("eta_points", .s "0.1"), ("particles", .s "kaon+")],
       [("eta_points", .s "0.2"), ("particles", .s "pi+")],
       [("eta_points", .s "0.2"), ("particles", .s "kaon+")]] ∧
    keyLexLeB [("eta_points", .s "0.1"), ("particles", .s "pi+")]
        [("eta_points", .s "0.1"), ("particles", .s "kaon+")] = false ∧
    ¬ List.Chain' (fun a b => keyLexLeB a b = true) claimFiveKeys := by
  refine ⟨rfl, by decide, ?_⟩
  intro hchain
  rw [show claimFiveKeys =
      [[("eta_points", .s "0.1"), ("particles", .s "pi+")],
       [("eta_points", .s "0.1"), ("particles", .s "kaon+")],
       [("eta_points", .s "0.2"), ("particles", .s "pi+")],
       [("eta_points", .s "0.2"), ("particles", .s "kaon+")]] from rfl] at hchain
  have h1 := hchain.rel_head
  revert h1
  decide

/-- Claim C5 amended: the key list is the cartesian product with parameter
NAMES sorted (each key tuple lists its pairs in sorted-name order) while
each parameter's VALUES appear in their declared list order — in S2, pi+
before kaon+; the construction is a pure function of the template, so
repeated initialization yields the same ordering. -/
theorem claimFive_amended :
    claimFiveKeys =
      [[("eta_points", .s "0.1"), ("particles", .s "pi+")],
       [("eta_points", .s "0.1"), ("particles", .s "kaon+")],
       [("eta_points", .s "0.2"), ("particles", .s "pi+")],
       [("eta_points", .s "0.2"), ("particles", .s "kaon+")]] ∧
    claimFiveKeys.all (fun key => key.map Prod.fst == ["eta_points", "particles"]) = true ∧
    ∀ (f : MultiStepsFunction) (params : List (String × Value)) (tid jid : String) (r : Bool),
      initMultiStepsJob f params tid jid r = initMultiStepsJob f params tid jid r :=
  ⟨rfl, by decide, fun _ _ _ _ _ => rfl⟩

/-- Claim C3 counterexample input: one step fanned out over a global
parameter whose value list contains a duplicate. -/
def claimThreeDupFunc : MultiStepsFunction :=
  { objectiveFuncs := [("s1", { runner := true })],
    globalParameters := [("p", [.s "a", .s "a"])],
    globalParametersSteps := ["s1"] }

/-- Claim C3 counterexample: the claim says every step in
`global_parameters_steps` has exactly |G| sub-jobs, one per element of the
cartesian product.  With the duplicated value list ["a", "a"] the product G
has 2 elements but both canonicalise to the same dict key, so step "s1" ends
up with a single sub-job. -/
theorem claimThree_counterexample :
    (initMultiStepsJob claimThreeDupFunc [] "t" "j" false).toOption.map
        (fun m => (m.globalParameters.length,
                   (dictGet m.stepJobs "s1").map List.length)) =
      some (2, some 1) ∧ (1 : Nat) ≠ 2 := ⟨rfl, by decide⟩

theorem mem_insertSortedBy {α : Type} {leB : α → α → Bool} {x y : α} :
    ∀ {l : List α}, y ∈ insertSortedBy leB x l → y = x ∨ y ∈ l := by
  intro l
  induction l with
  | nil =>
    intro h
    simpa [insertSortedBy] using h
  | cons z zs ih =>
    intro h
    by_cases hc : leB x z = true
    · simp only [insertSortedBy, if_pos hc] at h
      rcases List.mem_cons.mp h with h1 | h1
      · exact Or.inl h1
      · exact Or.inr h1
    · simp only [insertSortedBy, if_neg hc] at h
      rcases List.mem_cons.mp h with h1 | h1
      · exact Or.inr (h1 ▸ List.mem_cons_self _ _)
      · rcases ih h1 with h2 | h2
        · exact Or.inl h2
        · exact Or.inr (List.mem_cons_of_mem _ h2)

theorem insertSortedBy_perm {α : Type} (leB : α → α → Bool) (x : α) :
    ∀ (l : List α), List.Perm (insertSortedBy leB x l) (x :: l) := by
  intro l
  induction l with
  | nil => simp [insertSortedBy]
  | cons z zs ih =>
    by_cases hc : leB x z = true
    · simp [insertSortedBy, hc]
    · simp only [insertSortedBy, if_neg hc]
      exact List.Perm.trans (List.Perm.cons z ih) (List.Perm.swap x z zs)

theorem sortByB_perm {α : Type} (leB : α → α → Bool) :
    ∀ (l : List α), List.Perm (sortByB leB l) l := by
  intro l
  induction l with
  | nil => simp [sortByB]
  | cons x xs ih =>
    exact List.Perm.trans (insertSortedBy_perm leB x _) (List.Perm.cons x ih)

theorem sortByB_eq_of_chain {α : Type} {leB : α → α → Bool} :
    ∀ {l : List α}, List.Chain' (fun a b => leB a b = true) l → sortByB leB l = l := by
  intro l
  induction l with
  | nil => intro _; rfl
  | cons x xs ih =>
    intro h
    have hxs : List.Chain' (fun a b => leB a b = true) xs := h.tail
    rw [sortByB, ih hxs]
    cases xs with
    | nil => rfl
    | cons y ys =>
      have hxy : leB x y = true := (List.chain'_cons.mp h).1
      simp [insertSortedBy, hxy]

theorem insertSortedBy_chain {α : Type} {leB : α → α → Bool}
    (htotal : ∀ a b, leB a b = true ∨ leB b a = true) (x : α) :
    ∀ {l : List α}, List.Chain' (fun a b => leB a b = true) l →
      List.Chain' (fun a b => leB a b = true) (insertSortedBy leB x l) := by
  intro l
  induction l with
  | nil =>
    intro _
    simp [insertSortedBy]
  | cons z zs ih =>
    intro h
    have hzs : List.Chain' (fun a b => leB a b = true) zs := h.tail
    by_cases hc : leB x z = true
    · simp only [insertSortedBy, if_pos hc]
      exact List.chain'_cons.mpr ⟨hc, h⟩
    · simp only [insertSortedBy, if_neg hc]
      have hzx : leB z x = true := by
        rcases htotal x z with h1 | h1
        · exact absurd h1 hc
        · exact h1
      cases zs with
      | nil => simp [insertSortedBy, hzx]
      | cons w ws =>
        have hzw : leB z w = true := (List.chain'_cons.mp h).1
        by_cases hw : leB x w = true
        · simp only [insertSortedBy, if_pos hw]
          exact List.chain'_cons.mpr ⟨hzx,
            List.chain'_cons.mpr ⟨hw, h.tail⟩⟩
        · simp only [insertSortedBy, if_neg hw]
          have hrec := ih hzs
          simp only [insertSortedBy, if_neg hw] at hrec
          exact List.chain'_cons.mpr ⟨hzw, hrec⟩

theorem sortByB_chain {α : Type} {leB : α → α → Bool}
    (htotal : ∀ a b, leB a b = true ∨ leB b a = true) :
    ∀ (l : List α), List.Chain' (fun a b => leB a b = true) (sortByB leB l) := by
  intro l
  induction l with
  | nil => simp [sortByB]
  | cons x xs ih => exact insertSortedBy_chain htotal x ih

theorem charListLe_total : ∀ (a b : List Char),
    charListLe a b = true ∨ charListLe b a = true := by
  intro a
  induction a with
  | nil => intro b; left; rfl
  | cons c cs ih =>
    intro b
    cases b with
    | nil => right; rfl
    | cons d ds =>
      by_cases h1 : c.toNat < d.toNat
      · left; simp [charListLe, h1]
      · by_cases h2 : c.toNat = d.toNat
        · rcases ih ds with h3 | h3
          · left; simp [charListLe, h2, h3]
          · right; simp [charListLe, h2.symm, h3]
        · right
          have h4 : d.toNat < c.toNat := by omega
          simp [charListLe, h4]

theorem strLeB_total : ∀ (a b : String), strLeB a b = true ∨ strLeB b a = true := by
  intro a b
  exact charListLe_total a.data b.data

theorem chain'_zip_fst {α β : Type} {R : α → α → Prop} :
    ∀ (l : List α) (t : List β), List.Chain' R l →
      List.Chain' (fun a b => R a.1 b.1) (l.zip t) := by
  intro l
  induction l with
  | nil => intro t _; simp
  | cons x xs ih =>
    intro t h
    cases t with
    | nil => simp
    | cons y ys =>
      rw [List.zip_cons_cons]
      cases xs with
      | nil => simp
      | cons x2 xs2 =>
        cases ys with
        | nil => simp
        | cons y2 ys2 =>
          rw [List.zip_cons_cons]
          exact List.chain'_cons.mpr ⟨(List.chain'_cons.mp h).1,
            (by simpa [List.zip_cons_cons] using ih (y2 :: ys2) h.tail)⟩

theorem sum_const_of_mem {α : Type} (l : List α) (g : α → Nat) (c : Nat)
    (h : ∀ x ∈ l, g x = c) : (l.map g).sum = l.length * c := by
  induction l with
  | nil => simp
  | cons x xs ih =>
    have hx := h x (List.mem_cons_self _ _)
    have hxs := ih (fun y hy => h y (List.mem_cons_of_mem _ hy))
    simp [hx, hxs, Nat.succ_mul, Nat.add_comm]

theorem pyProduct_length {α : Type} : ∀ (ls : List (List α)),
    (pyProduct ls).length = (ls.map List.length).prod := by
  intro ls
  induction ls with
  | nil => rfl
  | cons l rest ih =>
    rw [pyProduct, List.length_flatMap, List.map_cons, List.prod_cons]
    exact sum_const_of_mem l _ _ (fun x _ => by simp [Function.comp, ih])

theorem mem_pyProduct_length {α : Type} : ∀ (ls : List (List α)) (t : List α),
    t ∈ pyProduct ls → t.length = ls.length := by
  intro ls
  induction ls with
  | nil =>
    intro t ht
    simp only [pyProduct, List.mem_singleton] at ht
    simp [ht]
  | cons l rest ih =>
    intro t ht
    simp only [pyProduct, List.mem_flatMap, List.mem_map] at ht
    rcases ht with ⟨x, _, t2, ht2, rfl⟩
    simp [ih t2 ht2]

theorem pyProduct_nodup {α : Type} : ∀ (ls : List (List α)),
    (∀ l ∈ ls, l.Nodup) → (pyProduct ls).Nodup := by
  intro ls
  induction ls with
  | nil =>
    intro _
    simp [pyProduct]
  | cons l rest ih =>
    intro h
    have hl : l.Nodup := h l (List.mem_cons_self _ _)
    have hrest : (pyProduct rest).Nodup := ih (fun l2 hl2 => h l2 (List.mem_cons_of_mem _ hl2))
    rw [pyProduct]
    rw [List.nodup_flatMap]
    constructor
    · intro x _
      exact hrest.map (fun t1 t2 he => by injection he)
    · refine hl.imp ?_
      intro a b hne
      rw [Function.onFun, List.disjoint_left]
      intro t ht1 ht2
      rcases List.mem_map.mp ht1 with ⟨u, _, rfl⟩
      rcases List.mem_map.mp ht2 with ⟨v, _, hv⟩
      injection hv with h1 h2
      exact hne h1.symm

theorem foldlM_dictInsert_count {κ β γ : Type} [DecidableEq κ] (kf : β → κ)
    (g : List (κ × γ) → β → Except String (List (κ × γ))) :
    ∀ (xs : List β),
      (∀ acc x, x ∈ xs → ∃ v, g acc x = .ok (dictInsert (kf x) v acc)) →
      (xs.map kf).Nodup →
      ∀ init : List (κ × γ), (∀ x ∈ xs, kf x ∉ init.map Prod.fst) →
      ∃ E, xs.foldlM g init = .ok E ∧ E.length = init.length + xs.length ∧
        E.map Prod.fst = init.map Prod.fst ++ xs.map kf := by
  intro xs
  induction xs with
  | nil =>
    intro _ _ init _
    exact ⟨init, rfl, by simp, by simp⟩
  | cons x rest ih =>
    intro hg hnodup init hinit
    rcases hg init x (List.mem_cons_self _ _) with ⟨v, hgx⟩
    have hx : kf x ∉ init.map Prod.fst := hinit x (List.mem_cons_self _ _)
    have hmap := map_fst_dictInsert_of_not_mem (k := kf x) v (l := init) hx
    have hlen := length_dictInsert_of_not_mem (k := kf x) v (l := init) hx
    simp only [List.map_cons, List.nodup_cons] at hnodup
    have hrest : ∀ y ∈ rest, kf y ∉ (dictInsert (kf x) v init).map Prod.fst := by
      intro y hy
      rw [hmap]
      intro hmem
      rcases List.mem_append.mp hmem with h1 | h1
      · exact hinit y (List.mem_cons_of_mem _ hy) h1
      · rcases List.mem_singleton.mp h1 with h2
        exact hnodup.1 (List.mem_map.mpr ⟨y, hy, h2⟩)
    rcases ih (fun acc y hy => hg acc y (List.mem_cons_of_mem _ hy)) hnodup.2
      (dictInsert (kf x) v init) hrest with ⟨E, hE, hElen, hEmap⟩
    refine ⟨E, ?_, ?_, ?_⟩
    · rw [List.foldlM_cons, hgx]
      simpa [bind, Except.bind] using hE
    · rw [hElen, hlen]
      simp only [List.length_cons]
      omega
    · rw [hEmap, hmap]
      simp

theorem zip_map_snd_of_len {α β : Type} :
    ∀ (l : List α) (t : List β), t.length = l.length → (l.zip t).map Prod.snd = t := by
  intro l
  induction l with
  | nil =>
    intro t ht
    cases t with
    | nil => rfl
    | cons y ys => simp at ht
  | cons x xs ih =>
    intro t ht
    cases t with
    | nil => simp at ht
    | cons y ys =>
      simp only [List.length_cons] at ht
      rw [List.zip_cons_cons, List.map_cons, ih ys (by omega)]

theorem comboList_length (gp : List (String × List Scalar))
    (hnames : (gp.map Prod.fst).Nodup) :
    (comboList gp).length = (gp.map (fun p => p.2.length)).prod := by
  unfold comboList
  rw [List.length_map, pyProduct_length, List.map_map]
  have hperm : List.Perm (sortByB strLeB (gp.map Prod.fst)) (gp.map Prod.fst) :=
    sortByB_perm _ _
  have hperm2 := hperm.map (fun k => ((dictGet gp k).getD []).length)
  rw [show (List.map (List.length ∘ fun k => (dictGet gp k).getD [])
        (sortByB strLeB (gp.map Prod.fst))) =
      List.map (fun k => ((dictGet gp k).getD []).length)
        (sortByB strLeB (gp.map Prod.fst)) from rfl]
  rw [hperm2.prod_eq, List.map_map]
  congr 1
  apply List.map_congr_left
  intro p hp
  have := dictGet_eq_some_of_mem_nodup (k := p.1) (v := p.2) hnames (by simpa using hp)
  simp [Function.comp, this]

theorem comboList_props (gp : List (String × List Scalar)) :
    ∀ c ∈ comboList gp, c.length = gp.length ∧ sortByName c = c := by
  intro c hc
  unfold comboList at hc
  rcases List.mem_map.mp hc with ⟨t, ht, rfl⟩
  have htlen : t.length = (sortByB strLeB (gp.map Prod.fst)).length := by
    have := mem_pyProduct_length _ t ht
    simpa using this
  have hsklen : (sortByB strLeB (gp.map Prod.fst)).length = gp.length := by
    rw [(sortByB_perm strLeB (gp.map Prod.fst)).length_eq, List.length_map]
  constructor
  · rw [List.length_zip, htlen, hsklen]
    omega
  · apply sortByB_eq_of_chain
    exact chain'_zip_fst _ t (sortByB_chain strLeB_total (gp.map Prod.fst))

theorem comboList_nodup (gp : List (String × List Scalar))
    (hnames : (gp.map Prod.fst).Nodup)
    (hvals : ∀ p ∈ gp, p.2.Nodup) : (comboList gp).Nodup := by
  unfold comboList
  apply List.Nodup.map_on
  · intro t1 ht1 t2 ht2 he
    have h1 : t1.length = (sortByB strLeB (gp.map Prod.fst)).length := by
      simpa using mem_pyProduct_length _ t1 ht1
    have h2 : t2.length = (sortByB strLeB (gp.map Prod.fst)).length := by
      simpa using mem_pyProduct_length _ t2 ht2
    have := congrArg (List.map Prod.snd) he
    rwa [zip_map_snd_of_len _ t1 h1, zip_map_snd_of_len _ t2 h2] at this
  · apply pyProduct_nodup
    intro l hl
    rcases List.mem_map.mp hl with ⟨k, hk, rfl⟩
    have hk2 : k ∈ gp.map Prod.fst := (sortByB_perm strLeB (gp.map Prod.fst)).mem_iff.mp hk
    rcases List.mem_map.mp hk2 with ⟨p, hp, rfl⟩
    rw [dictGet_eq_some_of_mem_nodup (k := p.1) (v := p.2) hnames (by simpa using hp)]
    exact hvals p hp

theorem comboList_keys_nodup (gp : List (String × List Scalar)) (hgp : gp ≠ [])
    (hnames : (gp.map Prod.fst).Nodup) (hvals : ∀ p ∈ gp, p.2.Nodup) :
    ((comboList gp).map (fun c => getKeyFromDict (some c))).Nodup := by
  have hcongr : (comboList gp).map (fun c => getKeyFromDict (some c)) =
      (comboList gp).map GKey.key := by
    apply List.map_congr_left
    intro c hc
    rcases comboList_props gp c hc with ⟨hlen, hsort⟩
    have hne : c.isEmpty = false := by
      cases c with
      | nil =>
        exfalso
        apply hgp
        cases gp with
        | nil => rfl
        | cons p ps => simp at hlen
      | cons a l => rfl
    simp [getKeyFromDict, hne, hsort]
  rw [hcongr]
  exact (comboList_nodup gp hnames hvals).map (fun a b h => by injection h)

theorem getStepJob_ok (msParams : List (String × Value)) (trialId : String)
    (selfRunner : Bool) (spec : StepSpec)
    (add : Option (List (String × Scalar))) (od : Option String)
    (idm : Option (List (String × String)))
    (h1 : spec.jobType = JobType.FUNCTION) (h2 : spec.hasFunc = true) :
    ∃ j, getStepJob msParams trialId selfRunner spec add od idm = .ok j := by
  simp only [getStepJob, h1, h2]
  simp only [Bool.not_true, Bool.false_eq_true, if_false, if_pos]
  exact ⟨_, rfl⟩

theorem initStep_ok (f : MultiStepsFunction) (combos : List (List (String × Scalar)))
    (trialId jobId : String) (selfRunner : Bool) (m : MSJob) (stepName : String)
    (spec : StepSpec) (h1 : spec.jobType = JobType.FUNCTION) (h2 : spec.hasFunc = true)
    (hkeys : (combos.map (fun c => getKeyFromDict (some c))).Nodup) :
    ∃ E, initStep f combos trialId jobId selfRunner m stepName spec =
        .ok { m with
                stepStates := dictInsert stepName
                  { state := JobState.NEW, returnFuncResults := spec.returnFuncResults }
                  m.stepStates,
                stepJobs := dictInsert stepName E m.stepJobs } ∧
      ((combos.isEmpty || decide (stepName ∉ f.globalParametersSteps)) = true →
        ∃ j, E = [(GKey.noneKey, j)]) ∧
      ((combos.isEmpty || decide (stepName ∉ f.globalParametersSteps)) = false →
        E.length = combos.length) := by
  by_cases hc : (combos.isEmpty || decide (stepName ∉ f.globalParametersSteps)) = true
  · rcases getStepJob_ok m.params trialId selfRunner spec none
        (spec.outputDataset.map (fun od => expandDatasetName od "None" trialId jobId))
        (spec.inputDatasets.map
          (fun idm => idm.map (fun p => (p.1, expandDatasetName p.2 "None" trialId jobId))))
        h1 h2 with ⟨j, hj⟩
    refine ⟨[(GKey.noneKey, j)], ?_, fun _ => ⟨j, rfl⟩,
      fun hcf => by rw [hcf] at hc; exact absurd hc (by decide)⟩
    rw [initStep]
    simp only [hc, if_true, hj, bind, Except.bind, pure, Except.pure]
  · have hg : ∀ (acc : List (GKey × Job)) (combo : List (String × Scalar)),
        combo ∈ combos →
        ∃ v, (do
            let job ← getStepJob m.params trialId selfRunner spec (some combo)
              (spec.outputDataset.map
                (fun od => expandDatasetName od (gParamStrOf combo) trialId jobId))
              (spec.inputDatasets.map
                (fun idm => idm.map
                  (fun p => (p.1, expandDatasetName p.2 (gParamStrOf combo) trialId jobId))))
            pure (dictInsert (getKeyFromDict (some combo)) job acc) :
              Except String (List (GKey × Job))) =
          .ok (dictInsert (getKeyFromDict (some combo)) v acc) := by
      intro acc combo _
      rcases getStepJob_ok m.params trialId selfRunner spec (some combo)
          (spec.outputDataset.map
            (fun od => expandDatasetName od (gParamStrOf combo) trialId jobId))
          (spec.inputDatasets.map
            (fun idm => idm.map
              (fun p => (p.1, expandDatasetName p.2 (gParamStrOf combo) trialId jobId))))
          h1 h2 with ⟨j, hj⟩
      refine ⟨j, ?_⟩
      rw [hj]
      simp [bind, Except.bind, pure, Except.pure]
    rcases foldlM_dictInsert_count (fun c => getKeyFromDict (some c)) _ combos hg hkeys []
        (by simp) with ⟨E, hE, hElen, _⟩
    refine ⟨E, ?_, fun hct => absurd hct hc, fun _ => by simpa using hElen⟩
    rw [initStep]
    simp only [hc, if_false, Bool.false_eq_true]
    rw [hE]
    simp [bind, Except.bind, pure, Except.pure]

theorem initFold_ok (f : MultiStepsFunction) (combos : List (List (String × Scalar)))
    (trialId jobId : String) (selfRunner : Bool) :
    ∀ (steps : List (String × StepSpec)) (m : MSJob),
      (steps.map Prod.fst).Nodup →
      (∀ p ∈ steps, p.2.jobType = JobType.FUNCTION ∧ p.2.hasFunc = true) →
      (combos.map (fun c => getKeyFromDict (some c))).Nodup →
      ∃ m2, steps.foldlM
          (fun mm sp => initStep f combos trialId jobId selfRunner mm sp.1 sp.2) m = .ok m2 ∧
        m2.params = m.params ∧
        m2.globalParameters = m.globalParameters ∧
        (∀ k, k ∉ steps.map Prod.fst → dictGet m2.stepJobs k = dictGet m.stepJobs k) ∧
        (∀ p ∈ steps, ∃ E, dictGet m2.stepJobs p.1 = some E ∧
          ((combos.isEmpty || decide (p.1 ∉ f.globalParametersSteps)) = true →
            ∃ j, E = [(GKey.noneKey, j)]) ∧
          ((combos.isEmpty || decide (p.1 ∉ f.globalParametersSteps)) = false →
            E.length = combos.length)) := by
  intro steps
  induction steps with
  | nil =>
    intro m _ _ _
    exact ⟨m, rfl, rfl, rfl, fun k _ => rfl, fun p hp => absurd hp (List.not_mem_nil p)⟩
  | cons sp rest ih =>
    intro m hnodup hfun hkeys
    have hsp := hfun sp (List.mem_cons_self _ _)
    rcases initStep_ok f combos trialId jobId selfRunner m sp.1 sp.2 hsp.1 hsp.2 hkeys with
      ⟨E, hstep, hthen, helse⟩
    simp only [List.map_cons, List.nodup_cons] at hnodup
    rcases ih _ hnodup.2 (fun p hp => hfun p (List.mem_cons_of_mem _ hp)) hkeys with
      ⟨m2, hfold, hparams, hgp2, hpres, hlook⟩
    refine ⟨m2, ?_, ?_, ?_, ?_, ?_⟩
    · rw [List.foldlM_cons, hstep]
      simpa [bind, Except.bind] using hfold
    · rw [hparams]
    · rw [hgp2]
    · intro k hk
      simp only [List.map_cons, List.mem_cons] at hk
      push_neg at hk
      rw [hpres k hk.2]
      exact dictGet_dictInsert_ne E m.stepJobs hk.1
    · intro p hp
      rcases List.mem_cons.mp hp with h1 | h1
      · refine ⟨E, ?_, h1 ▸ hthen, h1 ▸ helse⟩
        rw [h1]
        rw [hpres sp.1 hnodup.1]
        exact dictGet_dictInsert_self sp.1 E m.stepJobs
      · exact hlook p h1

/-- Claim C3 amended: for a MultiStepsFunction whose global parameters are a
non-empty mapping with distinct names and non-empty duplicate-free value
lists (and FUNCTION steps with distinct names), initialization gives |G| =
the product of the value-list lengths, every step inside
`global_parameters_steps` exactly |G| sub-jobs, and every step outside it
exactly one sub-job stored under the sentinel key "None".  (With a
duplicated value in some list, colliding canonical keys make the fanned-out
step hold fewer than |G| sub-jobs.) -/
theorem claimThree_amended (f : MultiStepsFunction) (params : List (String × Value))
    (tid jid : String) (r : Bool) (m : MSJob)
    (hgp : f.globalParameters ≠ [])
    (hnames : (f.globalParameters.map Prod.fst).Nodup)
    (hvals : ∀ p ∈ f.globalParameters, p.2 ≠ [] ∧ p.2.Nodup)
    (hsteps : (f.objectiveFuncs.map Prod.fst).Nodup)
    (hfun : ∀ p ∈ f.objectiveFuncs, p.2.jobType = JobType.FUNCTION ∧ p.2.hasFunc = true)
    (hinit : initMultiStepsJob f params tid jid r = .ok m) :
    m.globalParameters.length = (f.globalParameters.map (fun p => p.2.length)).prod ∧
    ∀ p ∈ f.objectiveFuncs,
      (p.1 ∈ f.globalParametersSteps →
        (dictGet m.stepJobs p.1).map List.length = some m.globalParameters.length) ∧
      (p.1 ∉ f.globalParametersSteps →
        ∃ j, dictGet m.stepJobs p.1 = some [(GKey.noneKey, j)]) := by
  have hie : f.globalParameters.isEmpty = false := by
    cases hg : f.globalParameters with
    | nil => exact absurd hg hgp
    | cons a l => rfl
  have hkeys := comboList_keys_nodup f.globalParameters hgp hnames
    (fun p hp => (hvals p hp).2)
  have hclen := comboList_length f.globalParameters hnames
  have hcne : (comboList f.globalParameters).isEmpty = false := by
    have hpos : 0 < (f.globalParameters.map (fun p => p.2.length)).prod := by
      apply List.prod_pos
      intro a ha
      rcases List.mem_map.mp ha with ⟨p, hp, rfl⟩
      have := (hvals p hp).1
      cases hv : p.2 with
      | nil => exact absurd hv this
      | cons b bs => simp [hv]
    cases hcl : comboList f.globalParameters with
    | nil =>
      rw [hcl] at hclen
      simp at hclen
      omega
    | cons c cs => rfl
  rcases initFold_ok f (comboList f.globalParameters) tid jid r f.objectiveFuncs
      { jobId := jid, trialId := tid, state := .CREATED, params := params,
        hasRunner := r, globalParameters := comboList f.globalParameters,
        globalParametersSteps := f.globalParametersSteps }
      hsteps hfun hkeys with ⟨m2, hfold, hparams, hgp2, hpres, hlook⟩
  have hm : m.stepJobs = m2.stepJobs ∧ m.globalParameters = m2.globalParameters := by
    unfold initMultiStepsJob at hinit
    rw [hie] at hinit
    simp only [Bool.false_eq_true, if_false] at hinit
    rw [hfold] at hinit
    simp only [bind, Except.bind, pure, Except.pure, Except.ok.injEq] at hinit
    rw [← hinit]
    exact ⟨rfl, rfl⟩
  have hglen : m.globalParameters.length =
      (f.globalParameters.map (fun p => p.2.length)).prod := by
    rw [hm.2, hgp2, ← hclen]
  refine ⟨hglen, ?_⟩
  intro p hp
  rcases hlook p hp with ⟨E, hE, hthen, helse⟩
  constructor
  · intro hin
    have hcond : ((comboList f.globalParameters).isEmpty ||
        decide (p.1 ∉ f.globalParametersSteps)) = false := by
      rw [hcne]
      simp [hin]
    rw [hm.1, hE]
    have hmap : (some E).map List.length = some E.length := rfl
    rw [hmap, helse hcond, hclen, hglen]
  · intro hout
    have hcond : ((comboList f.globalParameters).isEmpty ||
        decide (p.1 ∉ f.globalParametersSteps)) = true := by
      simp [hout]
    rcases hthen hcond with ⟨j, hEj⟩
    exact ⟨j, by rw [hm.1, hE, hEj]⟩

/-- Claim C3 witness input: two FUNCTION steps, one fanned out over a
duplicate-free global parameter with two values. -/
def claimThreeWitnessFunc : MultiStepsFunction :=
  { objectiveFuncs := [("s1", { runner := true }), ("s2", { runner := true })],
    globalParameters := [("a", [.s "x", .s "y"])],
    globalParametersSteps := ["s1"] }

/-- Claim C3 witness input: the initialized MultiStepsJob. -/
def claimThreeWitnessJob : MSJob :=
  match initMultiStepsJob claimThreeWitnessFunc [] "t" "j" false with
  | .ok m => m
  | .error _ => { jobId := "j" }

/-- Claim C3 amended witness at the concrete two-step template. -/
theorem claimThree_amended_witness :
    claimThreeWitnessJob.globalParameters.length =
      (claimThreeWitnessFunc.globalParameters.map (fun p => p.2.length)).prod ∧
    ∀ p ∈ claimThreeWitnessFunc.objectiveFuncs,
      (p.1 ∈ claimThreeWitnessFunc.globalParametersSteps →
        (dictGet claimThreeWitnessJob.stepJobs p.1).map List.length =
          some claimThreeWitnessJob.globalParameters.length) ∧
      (p.1 ∉ claimThreeWitnessFunc.globalParametersSteps →
        ∃ j, dictGet claimThreeWitnessJob.stepJobs p.1 = some [(GKey.noneKey, j)]) :=
  claimThree_amended claimThreeWitnessFunc [] "t" "j" false claimThreeWitnessJob
    (by decide) (by decide) (by decide) (by decide) (by decide) rfl
